import Mathlib

/-!
# DatabaseOpenDialog: tab/target bookkeeping of the unlock dialog

A shallow embedding of `src/gui/DatabaseOpenDialog.cpp`.

* The dialog's members (`m_tabBar`, `m_intent`, `m_dbWidgets`, `m_mergeDbWidget`, `m_db`) and the
  receivers connected to its `dialogFinished` signal form the state `DatabaseOpenDialog`.
* Calls that leave the dialog (`m_view->load`, `connect`/`disconnect`, `accept`/`reject`, the host's
  `setCurrentIndex`, the emission of `dialogFinished` and the slots it invokes) are recorded as a
  list of `Event`s returned next to the new state.
* `QTabBar` is the Qt widget; the part of it the dialog uses is modelled after Qt 5's
  `qtabbar.cpp` (`currentIndex`, `setCurrentIndex`, `addTab`, `removeTab`, `blockSignals`).
* `QList::operator[]` outside `[0, size)` is undefined in a release build (an assertion failure in
  a debug build); it is modelled as the fault `Fault.indexOutOfRange`.
* `Q_ASSERT` is the release-build no-op.
* `int` values are mathematical integers; `currentIndex + offset` is taken not to overflow.
* Only the connections this file makes to `dialogFinished` are tracked (`routes`); what a slot
  does once invoked is outside the dialog and recorded as one event.
-/

/-- Intent of the current unlock cycle (`DatabaseOpenDialog::Intent`). -/
inductive Intent where
  | None
  | Open
  | Merge
deriving DecidableEq, Repr

/-- Handle of an unlocked database (`QSharedPointer<Database>` target). -/
structure Database where
  id : Nat
deriving DecidableEq, Repr

/-- Non-null `DatabaseWidget*`: the pointer identity and what `database()->filePath()` returns. -/
structure DatabaseWidget where
  id : Nat
  filePath : String
deriving DecidableEq, Repr

/-- Undefined behaviour reached by the code. -/
inductive Fault where
  | indexOutOfRange (index : Int) (size : Nat)
deriving DecidableEq, Repr

/-- Calls leaving the dialog, in program order. -/
inductive Event where
  /-- Records `m_view->load(filePath)`. -/
  | load (filePath : String)
  /-- Records `disconnect(this, &dialogFinished, nullptr, nullptr)`. -/
  | disconnectAll
  /-- Records `connect(this, &dialogFinished, dbWidget, &DatabaseWidget::unlockDatabase)`. -/
  | connect (dbWidget : DatabaseWidget)
  /-- Records `QDialog::accept()`. -/
  | accept
  /-- Records `QDialog::reject()`. -/
  | reject
  /-- Records `tabWidget->setCurrentIndex(tabWidget->indexOf(dbWidget))` on the host. -/
  | hostSetCurrent (dbWidget : Option DatabaseWidget)
  /-- Records `emit dialogFinished(accepted, dbWidget)`. -/
  | dialogFinished (accepted : Bool) (dbWidget : Option DatabaseWidget)
  /-- Records the slot `receiver->unlockDatabase(accepted)` run by a connection of `dialogFinished`. -/
  | unlockDatabase (receiver : DatabaseWidget) (accepted : Bool)
deriving DecidableEq, Repr

/-- Is the event an emission of `dialogFinished`. -/
def Event.isDialogFinished : Event → Bool
  | .dialogFinished _ _ => true
  | _ => false

/-- Is the event an invocation of the `unlockDatabase` slot. -/
def Event.isUnlockDatabase : Event → Bool
  | .unlockDatabase _ _ => true
  | _ => false

/-- Is the event a `m_view->load` call. -/
def Event.isLoad : Event → Bool
  | .load _ => true
  | _ => false

/-- Is the event a `connect` call. -/
def Event.isConnect : Event → Bool
  | .connect _ => true
  | _ => false

/-- Indexing `QList<T>::operator[](int)`: defined only for `0 <= i < size()`. -/
def QList_at {α : Type} (l : List α) (i : Int) : Except Fault α :=
  if 0 ≤ i ∧ i < (l.length : Int) then
    match l[i.toNat]? with
    | some x => .ok x
    | none => .error (Fault.indexOutOfRange i l.length)
  else .error (Fault.indexOutOfRange i l.length)

/-- The characters after the last `/` of a path, `acc` being those read since the last `/`. -/
def lastSegment : List Char → List Char → List Char
  | [], acc => acc
  | c :: cs, acc => if c = '/' then lastSegment cs [] else lastSegment cs (acc ++ [c])

/-- Models `QFileInfo(path).fileName()`: the path without its directory part. -/
def fileName (path : String) : String :=
  String.mk (lastSegment path.data [])

/-! ## QTabBar -/

/-- The tab strip: tab labels, `d->currentIndex`, and the `blockSignals` flag. -/
structure QTabBar where
  tabList : List String
  current : Int
  signalsBlocked : Bool
deriving DecidableEq, Repr

namespace QTabBar

/-- A freshly constructed tab bar: no tabs, `currentIndex(-1)`. -/
def new : QTabBar := { tabList := [], current := -1, signalsBlocked := false }

/-- Method `QTabBar::count()`. -/
def count (b : QTabBar) : Int := (b.tabList.length : Int)

/-- Method `QTabBarPrivate::validIndex`. -/
def validIndex (b : QTabBar) (index : Int) : Bool :=
  decide (0 ≤ index) && decide (index < b.count)

/-- Method `QTabBar::currentIndex()`: the current tab, or -1 when there is none. -/
def currentIndex (b : QTabBar) : Int :=
  if b.validIndex b.current then b.current else -1

/-- Emission `emit currentChanged(index)`: delivered unless signals are blocked. -/
def emitCurrentChanged (b : QTabBar) (index : Int) : Option Int :=
  if b.signalsBlocked then none else some index

/-- Method `QObject::blockSignals`. -/
def blockSignals (b : QTabBar) (block : Bool) : QTabBar :=
  { b with signalsBlocked := block }

/-- Method `QTabBar::setCurrentIndex`: changes the current tab and emits `currentChanged` only for a valid
index different from the current one. Returns the delivered signal argument, if any. -/
def setCurrentIndex (b : QTabBar) (index : Int) : QTabBar × Option Int :=
  if b.validIndex index && decide (b.current ≠ index) then
    ({ b with current := index }, b.emitCurrentChanged index)
  else (b, none)

/-- Method `QTabBar::addTab(text)` (`insertTab(-1, text)`): appends; the first tab becomes current. -/
def addTab (b : QTabBar) (text : String) : QTabBar × Option Int :=
  let index : Int := b.count
  let b1 := { b with tabList := b.tabList ++ [text] }
  if b1.tabList.length = 1 then b1.setCurrentIndex index
  else if index ≤ b1.current then ({ b1 with current := b1.current + 1 }, none)
  else (b1, none)

/-- Method `QTabBar::removeTab(index)` with the default `SelectRightTab` behaviour. -/
def removeTab (b : QTabBar) (index : Int) : QTabBar × Option Int :=
  if b.validIndex index then
    let b1 := { b with tabList := b.tabList.eraseIdx index.toNat }
    if index = b.current then
      let b2 := { b1 with current := -1 }
      if b2.tabList.length > 0 then
        let newIndex := if index ≥ b2.count then b2.count - 1 else index
        if b2.validIndex newIndex then b2.setCurrentIndex newIndex else (b2, none)
      else (b2, b2.emitCurrentChanged (-1))
    else if index < b.current then b1.setCurrentIndex (b1.current - 1)
    else (b1, none)
  else (b, none)

/-- The loop `while (count() > 0) removeTab(0);` run for at most `fuel` iterations. Signals are
blocked around it, so nothing is delivered (`removeTab_blocked`). -/
def removeAllTabs : Nat → QTabBar → QTabBar
  | 0, b => b
  | fuel + 1, b => if b.count > 0 then removeAllTabs fuel (b.removeTab 0).1 else b

/-- Class invariant of the tab bar: a current tab exists exactly when there are tabs. -/
def WF (b : QTabBar) : Prop :=
  (b.tabList = [] → b.current = -1) ∧ (b.tabList ≠ [] → b.validIndex b.current = true)

instance (b : QTabBar) : Decidable b.WF := by
  unfold WF; infer_instance

end QTabBar

/-! ## The dialog -/

/-- Members of `DatabaseOpenDialog` and the receivers connected to its `dialogFinished` signal. -/
structure DatabaseOpenDialog where
  m_tabBar : QTabBar
  m_intent : Intent
  m_dbWidgets : List DatabaseWidget
  m_mergeDbWidget : Option DatabaseWidget
  m_db : Option Database
  /-- Receivers whose `unlockDatabase` slot is connected to `dialogFinished`, in connection order. -/
  routes : List DatabaseWidget
deriving DecidableEq, Repr

namespace DatabaseOpenDialog

/-- State after the constructor: empty tab bar, no targets, nothing connected to `dialogFinished`,
and the members' default values. -/
def init : DatabaseOpenDialog :=
  { m_tabBar := QTabBar.new, m_intent := Intent.None, m_dbWidgets := [],
    m_mergeDbWidget := none, m_db := none, routes := [] }

/-- Method `DatabaseOpenDialog::setTarget`. -/
def setTarget (d : DatabaseOpenDialog) (dbWidget : DatabaseWidget) (filePath : String) :
    DatabaseOpenDialog × List Event :=
  let d1 := if d.m_intent = Intent.Merge then { d with m_mergeDbWidget := some dbWidget } else d
  let d2 := { d1 with routes := [] }
  let d3 := { d2 with routes := d2.routes ++ [dbWidget] }
  (d3, [Event.disconnectAll, Event.connect dbWidget, Event.load filePath])

/-- Method `DatabaseOpenDialog::tabChanged`. -/
def tabChanged (d : DatabaseOpenDialog) (index : Int) :
    Except Fault (DatabaseOpenDialog × List Event) :=
  if index < 0 ∨ index ≥ (d.m_dbWidgets.length : Int) then
    .ok (d, [])
  else
    match QList_at d.m_dbWidgets index with
    | .error f => .error f
    | .ok dbWidget => .ok (setTarget d dbWidget dbWidget.filePath)

/-- Delivery of the tab bar's `currentChanged` signal to the slot `tabChanged`
(the `connect` of the constructor). -/
def deliver (d : DatabaseOpenDialog) (signal : Option Int) :
    Except Fault (DatabaseOpenDialog × List Event) :=
  match signal with
  | none => .ok (d, [])
  | some index => tabChanged d index

/-- A call of `m_tabBar->setCurrentIndex(index)` (also what a click on tab `index` does),
followed by the delivery of the signal it emits. -/
def selectTab (d : DatabaseOpenDialog) (index : Int) :
    Except Fault (DatabaseOpenDialog × List Event) :=
  let r := d.m_tabBar.setCurrentIndex index
  deliver { d with m_tabBar := r.1 } r.2

/-- Method `DatabaseOpenDialog::selectTabOffset`. -/
def selectTabOffset (d : DatabaseOpenDialog) (offset : Int) :
    Except Fault (DatabaseOpenDialog × List Event) :=
  if offset = 0 ∨ d.m_tabBar.count ≤ 1 then
    .ok (d, [])
  else
    let tab := d.m_tabBar.currentIndex + offset
    let last := d.m_tabBar.count - 1
    let tab := if tab < 0 then last else if tab > last then 0 else tab
    selectTab d tab

/-- Method `DatabaseOpenDialog::addDatabaseTab`; `none` is the null pointer. -/
def addDatabaseTab (d : DatabaseOpenDialog) (dbWidget : Option DatabaseWidget) :
    Except Fault (DatabaseOpenDialog × List Event) :=
  match dbWidget with
  | none => .ok (d, [])
  | some w =>
    let d1 := { d with m_dbWidgets := d.m_dbWidgets ++ [w] }
    let r := d1.m_tabBar.addTab (fileName w.filePath)
    deliver { d1 with m_tabBar := r.1 } r.2

/-- Method `DatabaseOpenDialog::setIntent`. -/
def setIntent (d : DatabaseOpenDialog) (intent : Intent) : DatabaseOpenDialog :=
  { d with m_intent := intent }

/-- Method `DatabaseOpenDialog::intent`. -/
def intent (d : DatabaseOpenDialog) : Intent := d.m_intent

/-- Method `DatabaseOpenDialog::database`. -/
def database (d : DatabaseOpenDialog) : Option Database := d.m_db

/-- Method `DatabaseOpenDialog::clearForms`. -/
def clearForms (d : DatabaseOpenDialog) : DatabaseOpenDialog × List Event :=
  let d1 := { d with m_db := none }
  let d2 := { d1 with m_intent := Intent.None }
  let d3 := { d2 with routes := [] }
  let d4 := { d3 with m_dbWidgets := [] }
  let bar := d4.m_tabBar.blockSignals true
  let bar := QTabBar.removeAllTabs bar.tabList.length bar
  let bar := bar.blockSignals false
  ({ d4 with m_tabBar := bar }, [Event.disconnectAll])

/-- Method `DatabaseOpenDialog::databaseWidget`; `none` is the null pointer. -/
def databaseWidget (d : DatabaseOpenDialog) : Except Fault (Option DatabaseWidget) :=
  if d.m_intent = Intent.Merge then
    .ok d.m_mergeDbWidget
  else
    let index := d.m_tabBar.currentIndex
    if index < (d.m_dbWidgets.length : Int) then
      match QList_at d.m_dbWidgets index with
      | .error f => .error f
      | .ok w => .ok (some w)
    else .ok none

/-- Emission `emit dialogFinished(accepted, dbWidget)`: the emission, then every connected slot in
connection order. -/
def emitDialogFinished (d : DatabaseOpenDialog) (accepted : Bool)
    (dbWidget : Option DatabaseWidget) : List Event :=
  Event.dialogFinished accepted dbWidget :: d.routes.map (fun r => Event.unlockDatabase r accepted)

/-- Method `DatabaseOpenDialog::complete`; `viewDatabase` is what `m_view->database()` returns. -/
def complete (d : DatabaseOpenDialog) (viewDatabase : Option Database) (accepted : Bool) :
    Except Fault (DatabaseOpenDialog × List Event) :=
  let d1 := { d with m_db := viewDatabase }
  let ev1 := if accepted then [Event.accept] else [Event.reject]
  match databaseWidget d1 with
  | .error f => .error f
  | .ok dbWidget =>
    let ev2 := if d1.m_intent ≠ Intent.Merge then [Event.hostSetCurrent dbWidget] else []
    let ev3 := emitDialogFinished d1 accepted dbWidget
    let r := clearForms d1
    .ok (r.1, ev1 ++ ev2 ++ ev3 ++ r.2)

/-! ## Sequences of calls -/

/-- One call on the dialog from outside. -/
inductive Op where
  | addDatabaseTab (dbWidget : DatabaseWidget)
  | selectTab (index : Int)
  | selectTabOffset (offset : Int)
  | tabChanged (index : Int)
  | setIntent (intent : Intent)
  | complete (viewDatabase : Option Database) (accepted : Bool)
  | clearForms
deriving DecidableEq, Repr

/-- Effect of one call. -/
def step (d : DatabaseOpenDialog) : Op → Except Fault (DatabaseOpenDialog × List Event)
  | .addDatabaseTab w => addDatabaseTab d (some w)
  | .selectTab i => selectTab d i
  | .selectTabOffset k => selectTabOffset d k
  | .tabChanged i => tabChanged d i
  | .setIntent x => .ok (setIntent d x, [])
  | .complete db acc => complete d db acc
  | .clearForms => .ok (clearForms d)

/-- Effect of a sequence of calls, with the events of all of them. -/
def run (d : DatabaseOpenDialog) : List Op → Except Fault (DatabaseOpenDialog × List Event)
  | [] => .ok (d, [])
  | op :: ops =>
    match step d op with
    | .error f => .error f
    | .ok (d1, evs1) =>
      match run d1 ops with
      | .error f => .error f
      | .ok (d2, evs2) => .ok (d2, evs1 ++ evs2)

/-- States reached from the constructed dialog by calls that return, each call satisfying
`allowed` in the state it is made in. -/
inductive ReachableBy (allowed : DatabaseOpenDialog → Op → Bool) : DatabaseOpenDialog → Prop where
  | init : ReachableBy allowed init
  | step {d d1 : DatabaseOpenDialog} {evs : List Event} (op : Op) :
      ReachableBy allowed d → allowed d op = true → DatabaseOpenDialog.step d op = .ok (d1, evs) →
      ReachableBy allowed d1

/-- Every call is allowed. -/
def anyCall (_ : DatabaseOpenDialog) (_ : Op) : Bool := true

/-- The host's protocol: the intent is set only while no target is registered, and the slot
`tabChanged` runs only through the tab bar's signal. -/
def hostProtocol (d : DatabaseOpenDialog) : Op → Bool
  | .setIntent _ => d.m_dbWidgets.isEmpty
  | .tabChanged _ => false
  | _ => true

/-- Calls of one cycle that neither set the intent nor end the cycle. -/
def cycleCall : Op → Bool
  | .addDatabaseTab _ => true
  | .selectTab _ => true
  | .selectTabOffset _ => true
  | .tabChanged _ => true
  | _ => false

/-- The receiver of the last `connect` among the events, `dflt` when there is none. -/
def lastConnected (dflt : Option DatabaseWidget) : List Event → Option DatabaseWidget
  | [] => dflt
  | Event.connect w :: evs => lastConnected (some w) evs
  | _ :: evs => lastConnected dflt evs

/-- The index `selectTabOffset` passes to the tab bar. -/
def offsetTarget (d : DatabaseOpenDialog) (offset : Int) : Int :=
  if d.m_tabBar.currentIndex + offset < 0 then d.m_tabBar.count - 1
  else if d.m_tabBar.currentIndex + offset > d.m_tabBar.count - 1 then 0
  else d.m_tabBar.currentIndex + offset

/-- Bookkeeping invariant: as many targets as tabs, a well-formed tab bar, signals not blocked. -/
structure Inv (d : DatabaseOpenDialog) : Prop where
  counts : d.m_dbWidgets.length = d.m_tabBar.tabList.length
  wf : d.m_tabBar.WF
  unblocked : d.m_tabBar.signalsBlocked = false

/-- The single connected receiver is the target `databaseWidget()` resolves to: the merge target
under intent `Merge`, the target at the tab bar's current index otherwise. Required once a target
is registered. -/
def RouteAgrees (d : DatabaseOpenDialog) : Prop :=
  d.m_dbWidgets ≠ [] →
    ∃ w, d.routes = [w] ∧
      (if d.m_intent = Intent.Merge then d.m_mergeDbWidget = some w
       else d.m_dbWidgets[d.m_tabBar.current.toNat]? = some w)

/-- The targets a sequence of calls registers, in order. -/
def registered : List Op → List DatabaseWidget
  | [] => []
  | Op.addDatabaseTab w :: ops => w :: registered ops
  | _ :: ops => registered ops

/-- What the specification's words track about selections: how many targets are registered, which
tab is current, and the index of the most recent selection change with a valid index. -/
structure SelectionState where
  count : Int
  current : Int
  last : Option Int
deriving DecidableEq, Repr

/-- Before any registration: no target, no current tab, no selection change yet. -/
def SelectionState.start : SelectionState := { count := 0, current := -1, last := none }

/-- A request to make tab `index` current: a selection change when the index is valid and not
already current. -/
def SelectionState.select (g : SelectionState) (index : Int) : SelectionState :=
  if 0 ≤ index ∧ index < g.count ∧ index ≠ g.current then
    { g with current := index, last := some index }
  else g

/-- Effect of one call on the selection, in the specification's words: the first registered target
is selected; a later registration selects nothing; a tab selection is a selection change when it
moves the current tab; `advance(offset)` does nothing for offset 0 or fewer than two tabs and
otherwise requests `current + offset`, below 0 the last tab, above the last tab 0; a call of the
selection-changed reaction itself counts when its index is valid. -/
def SelectionState.step (g : SelectionState) : Op → SelectionState
  | Op.addDatabaseTab _ =>
    if g.count = 0 then { count := 1, current := 0, last := some 0 }
    else { g with count := g.count + 1 }
  | Op.selectTab index => g.select index
  | Op.selectTabOffset offset =>
    if offset = 0 ∨ g.count ≤ 1 then g
    else
      g.select
        (if g.current + offset < 0 then g.count - 1
         else if g.current + offset > g.count - 1 then 0
         else g.current + offset)
  | Op.tabChanged index =>
    if 0 ≤ index ∧ index < g.count then { g with last := some index } else g
  | _ => g

/-- The selection after a sequence of calls. -/
def SelectionState.after (g : SelectionState) : List Op → SelectionState
  | [] => g
  | op :: ops => SelectionState.after (g.step op) ops

/-- Index of the most recent selection change with a valid index in a sequence of calls made on a
dialog without targets; `none` when there was none. -/
def lastSelectionChange (ops : List Op) : Option Int :=
  (SelectionState.after SelectionState.start ops).last

/-- The merge target is the target at index `last`; with no selection change yet there is no
target at all. -/
def MergeTargetAt (d : DatabaseOpenDialog) : Option Int → Prop
  | none => d.m_dbWidgets = []
  | some i => 0 ≤ i ∧ ∃ w, d.m_dbWidgets[i.toNat]? = some w ∧ d.m_mergeDbWidget = some w

/-- The dialog and the tracked selection agree. -/
structure SelectionAgrees (d : DatabaseOpenDialog) (g : SelectionState) : Prop where
  count : g.count = (d.m_dbWidgets.length : Int)
  current : g.current = d.m_tabBar.current
  target : MergeTargetAt d g.last

/-- Is every call of the sequence allowed in the state it is made in. -/
def allowedAlong (allowed : DatabaseOpenDialog → Op → Bool) (d : DatabaseOpenDialog) :
    List Op → Bool
  | [] => true
  | op :: ops =>
    allowed d op &&
      match step d op with
      | .ok (d1, _) => allowedAlong allowed d1 ops
      | .error _ => false

end DatabaseOpenDialog

/-! ## Concrete targets and states used in the scenarios -/

/-- Target A. -/
def widgetA : DatabaseWidget := { id := 1, filePath := "/home/u/a.kdbx" }

/-- Target B. -/
def widgetB : DatabaseWidget := { id := 2, filePath := "/home/u/b.kdbx" }

/-- Target C. -/
def widgetC : DatabaseWidget := { id := 3, filePath := "/home/u/c.kdbx" }

/-- Target D. -/
def widgetD : DatabaseWidget := { id := 4, filePath := "/srv/d.kdbx" }

/-- Target E. -/
def widgetE : DatabaseWidget := { id := 5, filePath := "/srv/e.kdbx" }

/-- Three targets A, B, C with tab `c` current and its target connected. -/
def dialogAt (c : Int) (w : DatabaseWidget) : DatabaseOpenDialog :=
  { m_tabBar := { tabList := ["a.kdbx", "b.kdbx", "c.kdbx"], current := c, signalsBlocked := false },
    m_intent := Intent.None, m_dbWidgets := [widgetA, widgetB, widgetC],
    m_mergeDbWidget := none, m_db := none, routes := [w] }

/-- The dialog after `setIntent(Merge)`, registering D, selecting tab 0, registering E and
selecting tab 1. -/
def dialogDE : DatabaseOpenDialog :=
  { m_tabBar := { tabList := ["d.kdbx", "e.kdbx"], current := 1, signalsBlocked := false },
    m_intent := Intent.Merge, m_dbWidgets := [widgetD, widgetE],
    m_mergeDbWidget := some widgetE, m_db := none, routes := [widgetE] }

/-- The dialog after a finished `Merge` cycle whose only target was D. -/
def dialogAfterMergeD : DatabaseOpenDialog :=
  { m_tabBar := QTabBar.new, m_intent := Intent.None, m_dbWidgets := [],
    m_mergeDbWidget := some widgetD, m_db := none, routes := [] }

/-- The dialog after registering A, B, C and selecting tab 1. -/
def dialogABC : DatabaseOpenDialog :=
  { m_tabBar := { tabList := ["a.kdbx", "b.kdbx", "c.kdbx"], current := 1, signalsBlocked := false },
    m_intent := Intent.None, m_dbWidgets := [widgetA, widgetB, widgetC],
    m_mergeDbWidget := none, m_db := none, routes := [widgetB] }

/-! ## Indexing and the tab bar -/

theorem QList_at_ok {α : Type} (l : List α) (i : Int) (x : α)
    (h0 : 0 ≤ i) (hx : l[i.toNat]? = some x) : QList_at l i = .ok x := by
  have hlt : i.toNat < l.length := by
    rcases Nat.lt_or_ge i.toNat l.length with h | h
    · exact h
    · rw [List.getElem?_eq_none h] at hx; cases hx
  have hi : i < (l.length : Int) := by omega
  simp [QList_at, h0, hi, hx]

theorem getElem?_of_inRange {α : Type} (l : List α) (i : Int)
    (h0 : 0 ≤ i) (h1 : i < (l.length : Int)) : ∃ x, l[i.toNat]? = some x := by
  have hlt : i.toNat < l.length := by omega
  exact ⟨l[i.toNat], List.getElem?_eq_getElem hlt⟩

namespace QTabBar

theorem removeTab_blocked (b : QTabBar) (index : Int) (hb : b.signalsBlocked = true) :
    (b.removeTab index).2 = none ∧ (b.removeTab index).1.signalsBlocked = true := by
  unfold removeTab setCurrentIndex emitCurrentChanged
  simp only [hb]
  split_ifs <;> simp [hb]

theorem removeTab_zero_length (b : QTabBar) (h : b.count > 0) :
    (b.removeTab 0).1.tabList.length + 1 = b.tabList.length := by
  have hpos : 0 < b.tabList.length := by
    have : (0 : Int) < (b.tabList.length : Int) := h
    omega
  have hv : b.validIndex 0 = true := by
    simp [validIndex, count, hpos]
  have herase : (b.tabList.eraseIdx 0).length + 1 = b.tabList.length := by
    rw [List.length_eraseIdx]
    simp [hpos]
    omega
  unfold removeTab setCurrentIndex
  simp only [hv, if_true, Int.toNat_zero]
  split_ifs <;> simpa using herase

theorem removeAllTabs_tabList (fuel : Nat) (b : QTabBar) (h : b.tabList.length ≤ fuel) :
    (removeAllTabs fuel b).tabList = [] := by
  induction fuel generalizing b with
  | zero =>
    have : b.tabList.length = 0 := by omega
    simpa [removeAllTabs] using List.length_eq_zero.mp this
  | succ n ih =>
    unfold removeAllTabs
    by_cases hc : b.count > 0
    · simp only [hc, if_true]
      apply ih
      have := removeTab_zero_length b hc
      omega
    · simp only [hc, if_false]
      have : b.tabList.length = 0 := by
        have : ¬ ((0 : Int) < (b.tabList.length : Int)) := hc
        omega
      exact List.length_eq_zero.mp this

theorem removeAllTabs_signalsBlocked (fuel : Nat) (b : QTabBar) (hb : b.signalsBlocked = true) :
    (removeAllTabs fuel b).signalsBlocked = true := by
  induction fuel generalizing b with
  | zero => simpa [removeAllTabs] using hb
  | succ n ih =>
    unfold removeAllTabs
    split_ifs
    · exact ih _ (removeTab_blocked b 0 hb).2
    · exact hb

theorem validIndex_iff (b : QTabBar) (i : Int) :
    b.validIndex i = true ↔ 0 ≤ i ∧ i < (b.tabList.length : Int) := by
  simp [validIndex, count]

theorem setCurrentIndex_tabList (b : QTabBar) (i : Int) :
    (b.setCurrentIndex i).1.tabList = b.tabList ∧
    (b.setCurrentIndex i).1.signalsBlocked = b.signalsBlocked := by
  unfold setCurrentIndex
  split_ifs <;> simp

theorem setCurrentIndex_WF (b : QTabBar) (i : Int) (h : b.WF) : (b.setCurrentIndex i).1.WF := by
  unfold setCurrentIndex
  split_ifs with hc
  · simp only [Bool.and_eq_true, decide_eq_true_eq] at hc
    have hv := (validIndex_iff b i).mp hc.1
    refine ⟨fun he => ?_, fun _ => ?_⟩
    · simp only at he
      rw [he] at hv
      simp at hv
      omega
    · exact hc.1
  · exact h

theorem addTab_tabList (b : QTabBar) (text : String) :
    (b.addTab text).1.tabList = b.tabList ++ [text] ∧
    (b.addTab text).1.signalsBlocked = b.signalsBlocked := by
  unfold addTab setCurrentIndex
  simp only
  split_ifs <;> simp

theorem addTab_WF (b : QTabBar) (text : String) (h : b.WF) : (b.addTab text).1.WF := by
  obtain ⟨h1, h2⟩ := h
  rcases hl : b.tabList with _ | ⟨t, ts⟩
  · have hcur := h1 hl
    refine ⟨fun he => ?_, fun _ => ?_⟩
    · rw [(addTab_tabList b text).1] at he
      simp at he
    · simp [addTab, setCurrentIndex, validIndex, count, hl, hcur]
  · have hv := (validIndex_iff b b.current).mp (h2 (by simp [hl]))
    rw [hl] at hv
    simp only [List.length_cons] at hv
    refine ⟨fun he => ?_, fun _ => ?_⟩
    · rw [(addTab_tabList b text).1] at he
      simp at he
    · have hnot : ¬ ((ts.length : Int) + 1 ≤ b.current) := by push_cast at hv; omega
      simp [addTab, count, hl, hnot, validIndex]
      push_cast at hv
      omega

theorem addTab_empty (b : QTabBar) (text : String) (hl : b.tabList = []) (hc : b.current = -1) :
    b.addTab text = ({ b with tabList := [text], current := 0 }, b.emitCurrentChanged 0) := by
  simp [addTab, setCurrentIndex, validIndex, count, hl, hc, emitCurrentChanged]

theorem addTab_nonempty (b : QTabBar) (text : String) (hl : b.tabList ≠ []) (h : b.WF) :
    b.addTab text = ({ b with tabList := b.tabList ++ [text] }, none) := by
  have hv := (validIndex_iff b b.current).mp (h.2 hl)
  have hlen : 0 < b.tabList.length := List.length_pos.mpr hl
  have hne : ¬ (b.tabList.length + 1 = 1) := by omega
  have hnot : ¬ ((b.tabList.length : Int) ≤ b.current) := by omega
  simp [addTab, count, hne, hnot, hl]

theorem removeTab_zero_WF (b : QTabBar) (h : b.WF) : (b.removeTab 0).1.WF := by
  obtain ⟨h1, h2⟩ := h
  rcases hl : b.tabList with _ | ⟨t, ts⟩
  · have hv : b.validIndex 0 = false := by simp [validIndex, count, hl]
    have : b.removeTab 0 = (b, none) := by simp [removeTab, hv]
    rw [this]
    exact ⟨h1, h2⟩
  · have hcur := (validIndex_iff b b.current).mp (h2 (by simp [hl]))
    rw [hl] at hcur
    simp only [List.length_cons] at hcur
    push_cast at hcur
    have hv : b.validIndex 0 = true := by simp [validIndex, count, hl]
    unfold removeTab
    simp only [hv, if_true, Int.toNat_zero, hl, List.eraseIdx_cons_zero]
    by_cases hc0 : (0 : Int) = b.current
    · simp only [hc0, if_true]
      rcases ts with _ | ⟨u, us⟩
      · simp [WF]
      · have hlenpos : ¬ ((us.length : Int) + 1 ≤ 0) := by omega
        have hlt : (0 : Int) < (us.length : Int) + 1 := by omega
        simp [WF, setCurrentIndex, validIndex, count, hc0.symm, hlenpos, hlt]
    · have hpos : (0 : Int) < b.current := by omega
      simp only [hc0, if_false, hpos, if_true]
      rcases ts with _ | ⟨u, us⟩
      · simp at hcur; omega
      · simp only [List.length_cons] at hcur
        push_cast at hcur
        have h1le : (1 : Int) ≤ b.current := by omega
        have hne : ¬ (b.current = b.current - 1) := by omega
        have hlt : b.current - 1 < (us.length : Int) + 1 := by omega
        simp [WF, setCurrentIndex, validIndex, count, h1le, hne, hlt]

theorem removeAllTabs_WF (fuel : Nat) (b : QTabBar) (h : b.WF) : (removeAllTabs fuel b).WF := by
  induction fuel generalizing b with
  | zero => simpa [removeAllTabs] using h
  | succ n ih =>
    unfold removeAllTabs
    split_ifs
    · exact ih _ (removeTab_zero_WF b h)
    · exact h

theorem removeAllTabs_current (b : QTabBar) (h : b.WF) :
    (removeAllTabs b.tabList.length b).current = -1 :=
  (removeAllTabs_WF _ b h).1 (removeAllTabs_tabList _ b (Nat.le_refl _))

end QTabBar

/-! ## The dialog's methods -/

namespace DatabaseOpenDialog

theorem tabChanged_inRange (d : DatabaseOpenDialog) (i : Int) (w : DatabaseWidget)
    (h0 : 0 ≤ i) (hw : d.m_dbWidgets[i.toNat]? = some w) :
    tabChanged d i = .ok (setTarget d w w.filePath) := by
  have hlt : i.toNat < d.m_dbWidgets.length := by
    rcases Nat.lt_or_ge i.toNat d.m_dbWidgets.length with h | h
    · exact h
    · rw [List.getElem?_eq_none h] at hw; cases hw
  have hguard : ¬ (i < 0 ∨ i ≥ (d.m_dbWidgets.length : Int)) := by omega
  unfold tabChanged
  rw [if_neg hguard, QList_at_ok _ _ _ h0 hw]

theorem tabChanged_outOfRange (d : DatabaseOpenDialog) (i : Int)
    (h : i < 0 ∨ i ≥ (d.m_dbWidgets.length : Int)) : tabChanged d i = .ok (d, []) := by
  unfold tabChanged
  rw [if_pos h]

theorem clearForms_fields (d : DatabaseOpenDialog) :
    (clearForms d).1.m_dbWidgets = [] ∧ (clearForms d).1.m_tabBar.tabList = [] ∧
    (clearForms d).1.routes = [] ∧ (clearForms d).1.m_intent = Intent.None ∧
    (clearForms d).1.m_db = none ∧ (clearForms d).1.m_mergeDbWidget = d.m_mergeDbWidget ∧
    (clearForms d).1.m_tabBar.signalsBlocked = false ∧ (clearForms d).2 = [Event.disconnectAll] := by
  refine ⟨rfl, ?_, rfl, rfl, rfl, rfl, rfl, rfl⟩
  simp only [clearForms, QTabBar.blockSignals]
  exact QTabBar.removeAllTabs_tabList _ _ (Nat.le_refl _)

theorem clearForms_current (d : DatabaseOpenDialog) (h : d.m_tabBar.WF) :
    (clearForms d).1.m_tabBar.current = -1 := by
  simp only [clearForms, QTabBar.blockSignals]
  exact QTabBar.removeAllTabs_current { d.m_tabBar with signalsBlocked := true } h

theorem clearForms_WF (d : DatabaseOpenDialog) (h : d.m_tabBar.WF) :
    (clearForms d).1.m_tabBar.WF := by
  refine ⟨fun _ => clearForms_current d h, fun hne => ?_⟩
  exact absurd (clearForms_fields d).2.1 hne

theorem filter_isDialogFinished_slots (rs : List DatabaseWidget) (accepted : Bool) :
    (rs.map (fun r => Event.unlockDatabase r accepted)).filter Event.isDialogFinished = [] := by
  induction rs with
  | nil => rfl
  | cons r rs _ => simp [List.filter, Event.isDialogFinished]

theorem filter_isUnlockDatabase_slots (rs : List DatabaseWidget) (accepted : Bool) :
    (rs.map (fun r => Event.unlockDatabase r accepted)).filter Event.isUnlockDatabase =
      rs.map (fun r => Event.unlockDatabase r accepted) := by
  induction rs with
  | nil => rfl
  | cons r rs _ => simp [List.filter, Event.isUnlockDatabase]

theorem databaseWidget_merge (d : DatabaseOpenDialog) (h : d.m_intent = Intent.Merge) :
    databaseWidget d = .ok d.m_mergeDbWidget := by
  simp [databaseWidget, h]

theorem databaseWidget_selected (d : DatabaseOpenDialog) (w : DatabaseWidget)
    (hI : d.m_intent ≠ Intent.Merge) (h0 : 0 ≤ d.m_tabBar.currentIndex)
    (hw : d.m_dbWidgets[d.m_tabBar.currentIndex.toNat]? = some w) :
    databaseWidget d = .ok (some w) := by
  have hlt : d.m_tabBar.currentIndex.toNat < d.m_dbWidgets.length := by
    rcases Nat.lt_or_ge d.m_tabBar.currentIndex.toNat d.m_dbWidgets.length with h | h
    · exact h
    · rw [List.getElem?_eq_none h] at hw; cases hw
  have hi : d.m_tabBar.currentIndex < (d.m_dbWidgets.length : Int) := by omega
  unfold databaseWidget
  rw [if_neg hI]
  simp only [hi, if_true]
  rw [QList_at_ok _ _ _ h0 hw]

theorem complete_of_databaseWidget (d : DatabaseOpenDialog) (db : Option Database)
    (accepted : Bool) (t : Option DatabaseWidget) (h : databaseWidget d = .ok t) :
    complete d db accepted =
      .ok ((clearForms d).1,
        (if accepted then [Event.accept] else [Event.reject]) ++
        (if d.m_intent ≠ Intent.Merge then [Event.hostSetCurrent t] else []) ++
        (Event.dialogFinished accepted t :: d.routes.map (fun r => Event.unlockDatabase r accepted)) ++
        [Event.disconnectAll]) := by
  have h1 : databaseWidget { d with m_db := db } = .ok t := h
  unfold complete
  simp only [h1]
  rfl

theorem completeEvents_filter_finished (accepted : Bool) (t : Option DatabaseWidget)
    (pre : List Event) (rs : List DatabaseWidget)
    (hpre : pre.filter Event.isDialogFinished = []) :
    (pre ++ (Event.dialogFinished accepted t :: rs.map (fun r => Event.unlockDatabase r accepted)) ++
        [Event.disconnectAll]).filter Event.isDialogFinished = [Event.dialogFinished accepted t] := by
  simp [List.filter_append, hpre, List.filter_cons, Event.isDialogFinished,
    filter_isDialogFinished_slots]

theorem completeEvents_filter_unlock (accepted : Bool) (t : Option DatabaseWidget)
    (pre : List Event) (rs : List DatabaseWidget)
    (hpre : pre.filter Event.isUnlockDatabase = []) :
    (pre ++ (Event.dialogFinished accepted t :: rs.map (fun r => Event.unlockDatabase r accepted)) ++
        [Event.disconnectAll]).filter Event.isUnlockDatabase =
      rs.map (fun r => Event.unlockDatabase r accepted) := by
  simp [List.filter_append, hpre, List.filter_cons, Event.isUnlockDatabase,
    filter_isUnlockDatabase_slots]

theorem completePrefix_filter (accepted : Bool) (c : Prop) [Decidable c]
    (t : Option DatabaseWidget) :
    ((if accepted then [Event.accept] else [Event.reject]) ++
      (if c then [Event.hostSetCurrent t] else [])).filter Event.isDialogFinished = [] ∧
    ((if accepted then [Event.accept] else [Event.reject]) ++
      (if c then [Event.hostSetCurrent t] else [])).filter Event.isUnlockDatabase = [] := by
  cases accepted <;> by_cases hc : c <;>
    simp [hc, List.filter, Event.isDialogFinished, Event.isUnlockDatabase]

theorem ok_pair_inj {ε α β : Type} {a : α × β} {x : α} {y : β}
    (h : (Except.ok a : Except ε (α × β)) = .ok (x, y)) : x = a.1 ∧ y = a.2 := by
  cases h
  exact ⟨rfl, rfl⟩

theorem inv_init : Inv init :=
  ⟨rfl, by decide, rfl⟩

theorem setTarget_fields (d : DatabaseOpenDialog) (w : DatabaseWidget) (path : String) :
    (setTarget d w path).1.m_dbWidgets = d.m_dbWidgets ∧
    (setTarget d w path).1.m_tabBar = d.m_tabBar ∧
    (setTarget d w path).1.m_intent = d.m_intent ∧
    (setTarget d w path).1.routes = [w] ∧
    (setTarget d w path).1.m_db = d.m_db ∧
    (d.m_intent = Intent.Merge → (setTarget d w path).1.m_mergeDbWidget = some w) ∧
    (d.m_intent ≠ Intent.Merge → (setTarget d w path).1.m_mergeDbWidget = d.m_mergeDbWidget) ∧
    (setTarget d w path).2 = [Event.disconnectAll, Event.connect w, Event.load path] := by
  simp only [setTarget]
  split_ifs with h <;> simp [h]

/-- The slot `tabChanged` always returns: either nothing happens (index out of range) or the
target at the index becomes the target of `setTarget`. -/
theorem tabChanged_cases (d : DatabaseOpenDialog) (i : Int) :
    ((i < 0 ∨ i ≥ (d.m_dbWidgets.length : Int)) ∧ tabChanged d i = .ok (d, [])) ∨
    (∃ w, 0 ≤ i ∧ d.m_dbWidgets[i.toNat]? = some w ∧
      tabChanged d i = .ok (setTarget d w w.filePath)) := by
  by_cases h : i < 0 ∨ i ≥ (d.m_dbWidgets.length : Int)
  · exact Or.inl ⟨h, tabChanged_outOfRange d i h⟩
  · have h0 : 0 ≤ i := by omega
    have h1 : i < (d.m_dbWidgets.length : Int) := by omega
    obtain ⟨w, hw⟩ := getElem?_of_inRange d.m_dbWidgets i h0 h1
    exact Or.inr ⟨w, h0, hw, tabChanged_inRange d i w h0 hw⟩

/-- What `selectTab` does: nothing when the index is invalid or already current; otherwise the
index becomes current and, signals not being blocked, `tabChanged` runs for it. -/
theorem selectTab_cases (d : DatabaseOpenDialog) (i : Int)
    (hu : d.m_tabBar.signalsBlocked = false) :
    ((d.m_tabBar.validIndex i = false ∨ d.m_tabBar.current = i) ∧ selectTab d i = .ok (d, [])) ∨
    (d.m_tabBar.validIndex i = true ∧ d.m_tabBar.current ≠ i ∧
      selectTab d i = tabChanged { d with m_tabBar := { d.m_tabBar with current := i } } i) := by
  by_cases hv : d.m_tabBar.validIndex i = true
  · by_cases hc : d.m_tabBar.current = i
    · left
      refine ⟨Or.inr hc, ?_⟩
      simp [selectTab, QTabBar.setCurrentIndex, hv, hc, deliver]
    · right
      refine ⟨hv, hc, ?_⟩
      simp [selectTab, QTabBar.setCurrentIndex, hv, hc, deliver, QTabBar.emitCurrentChanged, hu]
  · left
    have hv2 : d.m_tabBar.validIndex i = false := by simpa using hv
    refine ⟨Or.inl hv2, ?_⟩
    simp [selectTab, QTabBar.setCurrentIndex, hv2, deliver]

theorem selectTabOffset_cases (d : DatabaseOpenDialog) (offset : Int) :
    ((offset = 0 ∨ d.m_tabBar.count ≤ 1) ∧ selectTabOffset d offset = .ok (d, [])) ∨
    (offset ≠ 0 ∧ 1 < d.m_tabBar.count ∧
      selectTabOffset d offset = selectTab d (offsetTarget d offset)) := by
  by_cases h : offset = 0 ∨ d.m_tabBar.count ≤ 1
  · left
    exact ⟨h, by simp [selectTabOffset, h]⟩
  · right
    refine ⟨by omega, by omega, ?_⟩
    simp only [selectTabOffset, h, if_false, offsetTarget]

theorem inv_setCurrent (d : DatabaseOpenDialog) (i : Int) (h : Inv d)
    (hv : d.m_tabBar.validIndex i = true) :
    Inv { d with m_tabBar := { d.m_tabBar with current := i } } := by
  refine ⟨h.counts, ⟨fun he => ?_, fun _ => hv⟩, h.unblocked⟩
  have := (QTabBar.validIndex_iff d.m_tabBar i).mp hv
  have he2 : d.m_tabBar.tabList = [] := he
  rw [he2] at this
  simp at this
  omega

theorem inv_tabChanged (d d1 : DatabaseOpenDialog) (i : Int) (evs : List Event) (h : Inv d)
    (hs : tabChanged d i = .ok (d1, evs)) : Inv d1 := by
  rcases tabChanged_cases d i with ⟨-, h2⟩ | ⟨w, -, -, h2⟩
  · rw [h2] at hs
    cases hs
    exact h
  · rw [h2] at hs
    obtain ⟨rfl, rfl⟩ := ok_pair_inj hs
    obtain ⟨f1, f2, -⟩ := setTarget_fields d w w.filePath
    exact ⟨by rw [f1, f2]; exact h.counts, by rw [f2]; exact h.wf, by rw [f2]; exact h.unblocked⟩

theorem inv_selectTab (d d1 : DatabaseOpenDialog) (i : Int) (evs : List Event) (h : Inv d)
    (hs : selectTab d i = .ok (d1, evs)) : Inv d1 := by
  rcases selectTab_cases d i h.unblocked with ⟨-, h2⟩ | ⟨hv, -, h2⟩
  · rw [h2] at hs
    cases hs
    exact h
  · rw [h2] at hs
    exact inv_tabChanged _ _ _ _ (inv_setCurrent d i h hv) hs

theorem inv_selectTabOffset (d d1 : DatabaseOpenDialog) (k : Int) (evs : List Event) (h : Inv d)
    (hs : selectTabOffset d k = .ok (d1, evs)) : Inv d1 := by
  rcases selectTabOffset_cases d k with ⟨-, h2⟩ | ⟨-, -, h2⟩
  · rw [h2] at hs
    cases hs
    exact h
  · rw [h2] at hs
    exact inv_selectTab _ _ _ _ h hs

theorem inv_clearForms (d : DatabaseOpenDialog) (h : Inv d) : Inv (clearForms d).1 := by
  obtain ⟨c1, c2, -, -, -, -, c7, -⟩ := clearForms_fields d
  exact ⟨by rw [c1, c2]; rfl, clearForms_WF d h.wf, c7⟩

/-- Registration always returns. On an empty dialog the new tab becomes current and `tabChanged(0)`
runs for it; otherwise only the target and the tab are appended. -/
theorem addDatabaseTab_cases (d : DatabaseOpenDialog) (w : DatabaseWidget) (h : Inv d) :
    (d.m_dbWidgets = [] ∧
      addDatabaseTab d (some w) =
        .ok (setTarget { d with m_dbWidgets := [w],
                                m_tabBar := { d.m_tabBar with tabList := [fileName w.filePath],
                                                              current := 0 } } w w.filePath)) ∨
    (d.m_dbWidgets ≠ [] ∧
      addDatabaseTab d (some w) =
        .ok ({ d with m_dbWidgets := d.m_dbWidgets ++ [w],
                      m_tabBar := { d.m_tabBar with
                        tabList := d.m_tabBar.tabList ++ [fileName w.filePath] } }, [])) := by
  by_cases he : d.m_dbWidgets = []
  · left
    refine ⟨he, ?_⟩
    have hl : d.m_tabBar.tabList = [] := by
      have := h.counts
      rw [he] at this
      exact List.length_eq_zero.mp this.symm
    have hc := h.wf.1 hl
    have ht := tabChanged_inRange
      { d with m_dbWidgets := [w],
               m_tabBar := { d.m_tabBar with tabList := [fileName w.filePath], current := 0 } }
      0 w (by decide) (by simp)
    unfold addDatabaseTab
    simp only
    rw [QTabBar.addTab_empty _ _ hl hc]
    have hemit : d.m_tabBar.emitCurrentChanged 0 = some 0 := by
      simp [QTabBar.emitCurrentChanged, h.unblocked]
    simp only [hemit, deliver, he, List.nil_append]
    exact ht
  · right
    refine ⟨he, ?_⟩
    have hl : d.m_tabBar.tabList ≠ [] := by
      intro hl
      have := h.counts
      rw [hl] at this
      exact he (List.length_eq_zero.mp this)
    unfold addDatabaseTab
    simp only
    rw [QTabBar.addTab_nonempty _ _ hl h.wf]
    simp [deliver]

/-- The first registration: the target becomes the only target, its tab the current tab, and it
is the target of `setTarget`. -/
theorem addDatabaseTab_first (d : DatabaseOpenDialog) (w : DatabaseWidget) (h : Inv d)
    (he : d.m_dbWidgets = []) :
    ∃ d1, addDatabaseTab d (some w) =
        .ok (d1, [Event.disconnectAll, Event.connect w, Event.load w.filePath]) ∧
      d1.m_dbWidgets = [w] ∧
      d1.m_tabBar = { tabList := [fileName w.filePath], current := 0, signalsBlocked := false } ∧
      d1.m_intent = d.m_intent ∧ d1.routes = [w] ∧ d1.m_db = d.m_db ∧
      (d.m_intent = Intent.Merge → d1.m_mergeDbWidget = some w) ∧
      (d.m_intent ≠ Intent.Merge → d1.m_mergeDbWidget = d.m_mergeDbWidget) := by
  rcases addDatabaseTab_cases d w h with ⟨-, h2⟩ | ⟨hne, -⟩
  · obtain ⟨f1, f2, f3, f4, f5, f6, f7, f8⟩ := setTarget_fields
      { d with m_dbWidgets := [w],
               m_tabBar := { d.m_tabBar with tabList := [fileName w.filePath], current := 0 } }
      w w.filePath
    refine ⟨(setTarget
      { d with m_dbWidgets := [w],
               m_tabBar := { d.m_tabBar with tabList := [fileName w.filePath], current := 0 } }
      w w.filePath).1, ?_, f1, ?_, f3, f4, f5, f6, f7⟩
    · rw [h2, ← f8]
    · rw [f2]
      simp [h.unblocked]
  · exact absurd he hne

/-- A later registration: only the target and its tab are appended. -/
theorem addDatabaseTab_later (d : DatabaseOpenDialog) (w : DatabaseWidget) (h : Inv d)
    (hne : d.m_dbWidgets ≠ []) :
    ∃ d1, addDatabaseTab d (some w) = .ok (d1, []) ∧
      d1.m_dbWidgets = d.m_dbWidgets ++ [w] ∧
      d1.m_tabBar = { d.m_tabBar with tabList := d.m_tabBar.tabList ++ [fileName w.filePath] } ∧
      d1.m_intent = d.m_intent ∧ d1.routes = d.routes ∧ d1.m_db = d.m_db ∧
      d1.m_mergeDbWidget = d.m_mergeDbWidget := by
  rcases addDatabaseTab_cases d w h with ⟨he, -⟩ | ⟨-, h2⟩
  · exact absurd he hne
  · exact ⟨_, h2, rfl, rfl, rfl, rfl, rfl, rfl⟩

theorem inv_addDatabaseTab (d d1 : DatabaseOpenDialog) (w : DatabaseWidget) (evs : List Event)
    (h : Inv d) (hs : addDatabaseTab d (some w) = .ok (d1, evs)) : Inv d1 := by
  rcases addDatabaseTab_cases d w h with ⟨he, h2⟩ | ⟨he, h2⟩
  · rw [h2] at hs
    obtain ⟨rfl, rfl⟩ := ok_pair_inj hs
    obtain ⟨f1, f2, -⟩ := setTarget_fields
      { d with m_dbWidgets := [w],
               m_tabBar := { d.m_tabBar with tabList := [fileName w.filePath], current := 0 } }
      w w.filePath
    refine ⟨by rw [f1, f2]; rfl, ?_, by rw [f2]; exact h.unblocked⟩
    rw [f2]
    exact ⟨fun he2 => by simp at he2, fun _ => by simp [QTabBar.validIndex, QTabBar.count]⟩
  · rw [h2] at hs
    cases hs
    refine ⟨by simp [h.counts], ⟨fun he2 => ?_, fun _ => ?_⟩, h.unblocked⟩
    · simp at he2
    · have hl : d.m_tabBar.tabList ≠ [] := by
        intro hl
        have := h.counts
        rw [hl] at this
        exact he (List.length_eq_zero.mp this)
      have hv := (QTabBar.validIndex_iff _ _).mp (h.wf.2 hl)
      simp only [QTabBar.validIndex_iff, List.length_append, List.length_singleton]
      push_cast
      omega

theorem complete_state (d d1 : DatabaseOpenDialog) (db : Option Database) (accepted : Bool)
    (evs : List Event) (hs : complete d db accepted = .ok (d1, evs)) : d1 = (clearForms d).1 := by
  cases hdw : databaseWidget d with
  | error f =>
    have h1 : databaseWidget { d with m_db := db } = .error f := hdw
    have h2 : complete d db accepted = .error f := by
      unfold complete
      simp only [h1]
    rw [h2] at hs
    cases hs
  | ok t =>
    rw [complete_of_databaseWidget d db accepted t hdw] at hs
    exact (ok_pair_inj hs).1

theorem inv_step (d d1 : DatabaseOpenDialog) (op : Op) (evs : List Event) (h : Inv d)
    (hs : step d op = .ok (d1, evs)) : Inv d1 := by
  cases op with
  | addDatabaseTab w => exact inv_addDatabaseTab d d1 w evs h hs
  | selectTab i => exact inv_selectTab d d1 i evs h hs
  | selectTabOffset k => exact inv_selectTabOffset d d1 k evs h hs
  | tabChanged i => exact inv_tabChanged d d1 i evs h hs
  | setIntent x =>
    simp only [step] at hs
    cases hs
    exact ⟨h.counts, h.wf, h.unblocked⟩
  | complete db acc =>
    rw [complete_state d d1 db acc evs hs]
    exact inv_clearForms d h
  | clearForms =>
    simp only [step] at hs
    cases hs
    exact inv_clearForms d h

theorem inv_reachable (allowed : DatabaseOpenDialog → Op → Bool) (d : DatabaseOpenDialog)
    (h : ReachableBy allowed d) : Inv d := by
  induction h with
  | init => exact inv_init
  | step op _ _ hs ih => exact inv_step _ _ op _ ih hs

theorem reachableBy_run (allowed : DatabaseOpenDialog → Op → Bool) (ops : List Op)
    (d d1 : DatabaseOpenDialog) (evs : List Event) (h : ReachableBy allowed d)
    (ha : allowedAlong allowed d ops = true) (hr : run d ops = .ok (d1, evs)) :
    ReachableBy allowed d1 := by
  induction ops generalizing d evs with
  | nil =>
    simp only [run] at hr
    cases hr
    exact h
  | cons op ops ih =>
    simp only [allowedAlong, Bool.and_eq_true] at ha
    obtain ⟨ha1, ha2⟩ := ha
    simp only [run] at hr
    cases hstep : step d op with
    | error f =>
      rw [hstep] at hr
      cases hr
    | ok r =>
      obtain ⟨d2, evs2⟩ := r
      rw [hstep] at hr ha2
      simp only at hr ha2
      cases hrun : run d2 ops with
      | error f =>
        rw [hrun] at hr
        cases hr
      | ok r2 =>
        obtain ⟨d3, evs3⟩ := r2
        rw [hrun] at hr
        simp only at hr
        have hd : d3 = d1 := by
          injection hr with hr
          exact congrArg Prod.fst hr
        subst hd
        exact ih d2 evs3 (ReachableBy.step op h ha1 hstep) ha2 hrun

theorem tabChanged_returns (d : DatabaseOpenDialog) (i : Int) :
    ∃ d1 evs, tabChanged d i = .ok (d1, evs) ∧ d1.m_tabBar = d.m_tabBar ∧
      d1.m_dbWidgets = d.m_dbWidgets ∧ d1.m_intent = d.m_intent ∧ d1.m_db = d.m_db := by
  rcases tabChanged_cases d i with ⟨-, h2⟩ | ⟨w, -, -, h2⟩
  · exact ⟨d, [], h2, rfl, rfl, rfl, rfl⟩
  · obtain ⟨f1, f2, f3, -, f5, -⟩ := setTarget_fields d w w.filePath
    exact ⟨(setTarget d w w.filePath).1, (setTarget d w w.filePath).2, h2, f2, f1, f3, f5⟩

theorem selectTab_returns (d : DatabaseOpenDialog) (i : Int) :
    ∃ d1 evs, selectTab d i = .ok (d1, evs) ∧
      d1.m_tabBar = (d.m_tabBar.setCurrentIndex i).1 ∧
      d1.m_dbWidgets = d.m_dbWidgets ∧ d1.m_intent = d.m_intent ∧ d1.m_db = d.m_db := by
  unfold selectTab deliver
  simp only
  cases hsig : (d.m_tabBar.setCurrentIndex i).2 with
  | none => exact ⟨_, [], rfl, rfl, rfl, rfl, rfl⟩
  | some j =>
    obtain ⟨d1, evs, h1, h2, h3, h4, h5⟩ :=
      tabChanged_returns { d with m_tabBar := (d.m_tabBar.setCurrentIndex i).1 } j
    exact ⟨d1, evs, h1, h2, h3, h4, h5⟩

theorem setCurrentIndex_currentIndex (b : QTabBar) (i : Int) (hv : b.validIndex i = true) :
    (b.setCurrentIndex i).1.currentIndex = i ∧ (b.setCurrentIndex i).1.tabList = b.tabList := by
  by_cases hc : b.current = i
  · have he : b.setCurrentIndex i = (b, none) := by simp [QTabBar.setCurrentIndex, hc]
    rw [he]
    refine ⟨?_, rfl⟩
    simp only [QTabBar.currentIndex]
    rw [hc, hv]
    simp
  · have he : b.setCurrentIndex i = ({ b with current := i }, b.emitCurrentChanged i) := by
      simp [QTabBar.setCurrentIndex, hv, hc]
    rw [he]
    refine ⟨?_, rfl⟩
    have hv2 : QTabBar.validIndex { b with current := i } i = true := hv
    simp [QTabBar.currentIndex, hv2]

theorem offsetTarget_valid (d : DatabaseOpenDialog) (offset : Int) (h : 1 < d.m_tabBar.count) :
    d.m_tabBar.validIndex (offsetTarget d offset) = true := by
  rw [QTabBar.validIndex_iff]
  unfold offsetTarget
  unfold QTabBar.count at h ⊢
  split_ifs <;> omega

/-- With at least two tabs and a non-zero offset `selectTabOffset` returns and makes the index
computed from `currentIndex + offset` current; targets, tabs, intent and saved database stay. -/
theorem selectTabOffset_selects (d : DatabaseOpenDialog) (offset : Int)
    (hN : 1 < d.m_tabBar.count) (hoff : offset ≠ 0) :
    ∃ d1 evs, selectTabOffset d offset = .ok (d1, evs) ∧
      d1.m_tabBar.currentIndex = offsetTarget d offset ∧
      d1.m_tabBar.tabList = d.m_tabBar.tabList ∧
      d1.m_dbWidgets = d.m_dbWidgets ∧ d1.m_intent = d.m_intent ∧ d1.m_db = d.m_db := by
  rcases selectTabOffset_cases d offset with ⟨h1, -⟩ | ⟨-, -, h2⟩
  · rcases h1 with h1 | h1
    · exact absurd h1 hoff
    · omega
  · obtain ⟨d1, evs, e1, e2, e3, e4, e5⟩ := selectTab_returns d (offsetTarget d offset)
    obtain ⟨c1, c2⟩ := setCurrentIndex_currentIndex d.m_tabBar _ (offsetTarget_valid d offset hN)
    exact ⟨d1, evs, by rw [h2]; exact e1, by rw [e2]; exact c1, by rw [e2]; exact c2, e3, e4, e5⟩

theorem routeAgrees_databaseWidget (d : DatabaseOpenDialog) (w : DatabaseWidget) (h : Inv d)
    (hne : d.m_dbWidgets ≠ [])
    (hw : if d.m_intent = Intent.Merge then d.m_mergeDbWidget = some w
          else d.m_dbWidgets[d.m_tabBar.current.toNat]? = some w) :
    databaseWidget d = .ok (some w) := by
  by_cases hI : d.m_intent = Intent.Merge
  · rw [if_pos hI] at hw
    rw [databaseWidget_merge d hI, hw]
  · rw [if_neg hI] at hw
    have hl : d.m_tabBar.tabList ≠ [] := by
      intro hl
      have := h.counts
      rw [hl] at this
      exact hne (List.length_eq_zero.mp this)
    have hv := h.wf.2 hl
    have hcur : d.m_tabBar.currentIndex = d.m_tabBar.current := by
      simp [QTabBar.currentIndex, hv]
    have h0 := ((QTabBar.validIndex_iff _ _).mp hv).1
    exact databaseWidget_selected d w hI (by rw [hcur]; exact h0) (by rw [hcur]; exact hw)

theorem routeAgrees_tabChanged_current (d d1 : DatabaseOpenDialog) (evs : List Event)
    (h : Inv d) (hne : d.m_dbWidgets ≠ [])
    (hs : tabChanged d d.m_tabBar.current = .ok (d1, evs)) : RouteAgrees d1 := by
  have hl : d.m_tabBar.tabList ≠ [] := by
    intro hl
    have := h.counts
    rw [hl] at this
    exact hne (List.length_eq_zero.mp this)
  have hv := (QTabBar.validIndex_iff _ _).mp (h.wf.2 hl)
  rw [← h.counts] at hv
  obtain ⟨w, hw⟩ := getElem?_of_inRange d.m_dbWidgets d.m_tabBar.current hv.1 hv.2
  rw [tabChanged_inRange d _ w hv.1 hw] at hs
  obtain ⟨rfl, rfl⟩ := ok_pair_inj hs
  obtain ⟨f1, f2, f3, f4, -, f6, -⟩ := setTarget_fields d w w.filePath
  intro _
  refine ⟨w, f4, ?_⟩
  rw [f3, f1, f2]
  by_cases hI : d.m_intent = Intent.Merge
  · rw [if_pos hI]
    exact f6 hI
  · rw [if_neg hI]
    exact hw

theorem routeAgrees_selectTab (d d1 : DatabaseOpenDialog) (i : Int) (evs : List Event)
    (h : Inv d) (hr : RouteAgrees d) (hs : selectTab d i = .ok (d1, evs)) : RouteAgrees d1 := by
  rcases selectTab_cases d i h.unblocked with ⟨-, h2⟩ | ⟨hv, -, h2⟩
  · rw [h2] at hs
    cases hs
    exact hr
  · rw [h2] at hs
    have hne : d.m_dbWidgets ≠ [] := by
      intro he
      have hc := h.counts
      rw [he] at hc
      have := (QTabBar.validIndex_iff _ _).mp hv
      rw [← hc] at this
      simp at this
      omega
    exact routeAgrees_tabChanged_current
      { d with m_tabBar := { d.m_tabBar with current := i } } d1 evs (inv_setCurrent d i h hv) hne hs

theorem routeAgrees_addDatabaseTab (d d1 : DatabaseOpenDialog) (w : DatabaseWidget)
    (evs : List Event) (h : Inv d) (hr : RouteAgrees d)
    (hs : addDatabaseTab d (some w) = .ok (d1, evs)) : RouteAgrees d1 := by
  by_cases he : d.m_dbWidgets = []
  · obtain ⟨d2, h2, f1, f2, f3, f4, -, f6, -⟩ := addDatabaseTab_first d w h he
    rw [h2] at hs
    obtain ⟨rfl, rfl⟩ := ok_pair_inj hs
    intro _
    refine ⟨w, f4, ?_⟩
    rw [f3, f1, f2]
    by_cases hI : d.m_intent = Intent.Merge
    · rw [if_pos hI]
      exact f6 hI
    · rw [if_neg hI]
      rfl
  · obtain ⟨d2, h2, f1, f2, f3, f4, -, f6⟩ := addDatabaseTab_later d w h he
    rw [h2] at hs
    obtain ⟨rfl, rfl⟩ := ok_pair_inj hs
    obtain ⟨w0, hw0, hsel⟩ := hr he
    intro _
    refine ⟨w0, by rw [f4]; exact hw0, ?_⟩
    rw [f3, f1, f2, f6]
    by_cases hI : d.m_intent = Intent.Merge
    · rw [if_pos hI] at hsel ⊢
      exact hsel
    · rw [if_neg hI] at hsel ⊢
      have hlt : d.m_tabBar.current.toNat < d.m_dbWidgets.length := by
        rcases Nat.lt_or_ge d.m_tabBar.current.toNat d.m_dbWidgets.length with h' | h'
        · exact h'
        · rw [List.getElem?_eq_none h'] at hsel; cases hsel
      simp only
      rw [List.getElem?_append_left hlt]
      exact hsel

theorem routeAgrees_of_empty (d : DatabaseOpenDialog) (he : d.m_dbWidgets = []) :
    RouteAgrees d :=
  fun hne => absurd he hne

theorem routeAgrees_step (d d1 : DatabaseOpenDialog) (op : Op) (evs : List Event) (h : Inv d)
    (hr : RouteAgrees d) (ha : hostProtocol d op = true) (hs : step d op = .ok (d1, evs)) :
    RouteAgrees d1 := by
  cases op with
  | addDatabaseTab w => exact routeAgrees_addDatabaseTab d d1 w evs h hr hs
  | selectTab i => exact routeAgrees_selectTab d d1 i evs h hr hs
  | selectTabOffset k =>
    simp only [step] at hs
    rcases selectTabOffset_cases d k with ⟨-, h2⟩ | ⟨-, -, h2⟩
    · rw [h2] at hs
      cases hs
      exact hr
    · rw [h2] at hs
      exact routeAgrees_selectTab d d1 _ evs h hr hs
  | tabChanged i => simp [hostProtocol] at ha
  | setIntent x =>
    simp only [step] at hs
    cases hs
    simp only [hostProtocol, List.isEmpty_iff] at ha
    exact routeAgrees_of_empty _ ha
  | complete db acc =>
    rw [complete_state d d1 db acc evs hs]
    exact routeAgrees_of_empty _ (clearForms_fields d).1
  | clearForms =>
    simp only [step] at hs
    cases hs
    exact routeAgrees_of_empty _ (clearForms_fields d).1

theorem routeAgrees_reachable (d : DatabaseOpenDialog) (h : ReachableBy hostProtocol d) :
    RouteAgrees d := by
  induction h with
  | init => exact routeAgrees_of_empty _ rfl
  | step op hreach ha hs ih =>
    exact routeAgrees_step _ _ op _ (inv_reachable hostProtocol _ hreach) ih ha hs

theorem lastConnected_append (dflt : Option DatabaseWidget) (e1 e2 : List Event) :
    lastConnected dflt (e1 ++ e2) = lastConnected (lastConnected dflt e1) e2 := by
  induction e1 generalizing dflt with
  | nil => rfl
  | cons e es ih =>
    cases e <;> simp only [List.cons_append, lastConnected] <;> exact ih _

theorem lastConnected_some (w : DatabaseWidget) (evs : List Event) :
    ∃ w1, lastConnected (some w) evs = some w1 := by
  induction evs generalizing w with
  | nil => exact ⟨w, rfl⟩
  | cons e es ih =>
    cases e <;> simp only [lastConnected] <;> exact ih _

/-- Under intent `Merge` the slot `tabChanged` leaves the merge target equal to the receiver of
its last `connect`, if it made one. -/
theorem merge_tabChanged (d : DatabaseOpenDialog) (i : Int) (hI : d.m_intent = Intent.Merge) :
    ∃ d1 evs, tabChanged d i = .ok (d1, evs) ∧ d1.m_intent = Intent.Merge ∧
      d1.m_mergeDbWidget = lastConnected d.m_mergeDbWidget evs ∧
      d1.m_dbWidgets = d.m_dbWidgets ∧ (d.m_dbWidgets = [] → d1 = d ∧ evs = []) := by
  rcases tabChanged_cases d i with ⟨-, h2⟩ | ⟨w, h0, hw, h2⟩
  · exact ⟨d, [], h2, hI, rfl, rfl, fun _ => ⟨rfl, rfl⟩⟩
  · obtain ⟨f1, -, f3, -, -, f6, -, f8⟩ := setTarget_fields d w w.filePath
    refine ⟨(setTarget d w w.filePath).1, (setTarget d w w.filePath).2, h2, by rw [f3]; exact hI,
      ?_, f1, fun he => ?_⟩
    · rw [f6 hI, f8]
      rfl
    · rw [he] at hw
      simp at hw

theorem merge_selectTab (d : DatabaseOpenDialog) (i : Int) (h : Inv d)
    (hI : d.m_intent = Intent.Merge) :
    ∃ d1 evs, selectTab d i = .ok (d1, evs) ∧ d1.m_intent = Intent.Merge ∧
      d1.m_mergeDbWidget = lastConnected d.m_mergeDbWidget evs ∧
      d1.m_dbWidgets = d.m_dbWidgets ∧ (d.m_dbWidgets = [] → d1 = d ∧ evs = []) := by
  rcases selectTab_cases d i h.unblocked with ⟨-, h2⟩ | ⟨hv, -, h2⟩
  · exact ⟨d, [], h2, hI, rfl, rfl, fun _ => ⟨rfl, rfl⟩⟩
  · obtain ⟨d1, evs, t1, t2, t3, t4, -⟩ :=
      merge_tabChanged { d with m_tabBar := { d.m_tabBar with current := i } } i hI
    refine ⟨d1, evs, by rw [h2]; exact t1, t2, t3, t4, fun he => ?_⟩
    have hc := h.counts
    rw [he] at hc
    have := (QTabBar.validIndex_iff _ _).mp hv
    rw [← hc] at this
    simp at this
    omega

theorem merge_selectTabOffset (d : DatabaseOpenDialog) (k : Int) (h : Inv d)
    (hI : d.m_intent = Intent.Merge) :
    ∃ d1 evs, selectTabOffset d k = .ok (d1, evs) ∧ d1.m_intent = Intent.Merge ∧
      d1.m_mergeDbWidget = lastConnected d.m_mergeDbWidget evs ∧
      d1.m_dbWidgets = d.m_dbWidgets ∧ (d.m_dbWidgets = [] → d1 = d ∧ evs = []) := by
  rcases selectTabOffset_cases d k with ⟨-, h2⟩ | ⟨-, -, h2⟩
  · exact ⟨d, [], h2, hI, rfl, rfl, fun _ => ⟨rfl, rfl⟩⟩
  · rw [h2]
    exact merge_selectTab d _ h hI

/-- One call of a `Merge` cycle: it returns, the intent stays `Merge`, the merge target is the
receiver of the last `connect` so far, registered targets stay registered, and on a dialog
without targets a registration connects its target while every other call does nothing. -/
theorem merge_step (d : DatabaseOpenDialog) (op : Op) (h : Inv d)
    (hI : d.m_intent = Intent.Merge) (hc : cycleCall op = true) :
    ∃ d1 evs, step d op = .ok (d1, evs) ∧ d1.m_intent = Intent.Merge ∧
      d1.m_mergeDbWidget = lastConnected d.m_mergeDbWidget evs ∧
      (d.m_dbWidgets ≠ [] → d1.m_dbWidgets ≠ []) ∧
      (d.m_dbWidgets = [] →
        ((∃ w, op = Op.addDatabaseTab w) ∧ d1.m_dbWidgets ≠ [] ∧
          ∃ w1, lastConnected none evs = some w1) ∨
        ((∀ w, op ≠ Op.addDatabaseTab w) ∧ d1 = d ∧ evs = [])) := by
  cases op with
  | addDatabaseTab w =>
    by_cases he : d.m_dbWidgets = []
    · obtain ⟨d1, h2, f1, -, f3, -, -, f6, -⟩ := addDatabaseTab_first d w h he
      refine ⟨d1, _, h2, by rw [f3]; exact hI, ?_, fun hne => absurd he hne, fun _ => ?_⟩
      · rw [f6 hI]
        rfl
      · exact Or.inl ⟨⟨w, rfl⟩, by rw [f1]; simp, ⟨w, rfl⟩⟩
    · obtain ⟨d1, h2, f1, -, f3, -, -, f6⟩ := addDatabaseTab_later d w h he
      refine ⟨d1, _, h2, by rw [f3]; exact hI, by rw [f6]; rfl, fun _ => by rw [f1]; simp,
        fun he2 => absurd he2 he⟩
  | selectTab i =>
    obtain ⟨d1, evs, t1, t2, t3, t4, t5⟩ := merge_selectTab d i h hI
    exact ⟨d1, evs, t1, t2, t3, fun hne => by rw [t4]; exact hne,
      fun he => Or.inr ⟨(fun w hw => by cases hw), t5 he⟩⟩
  | selectTabOffset k =>
    obtain ⟨d1, evs, t1, t2, t3, t4, t5⟩ := merge_selectTabOffset d k h hI
    exact ⟨d1, evs, t1, t2, t3, fun hne => by rw [t4]; exact hne,
      fun he => Or.inr ⟨(fun w hw => by cases hw), t5 he⟩⟩
  | tabChanged i =>
    obtain ⟨d1, evs, t1, t2, t3, t4, t5⟩ := merge_tabChanged d i hI
    exact ⟨d1, evs, t1, t2, t3, fun hne => by rw [t4]; exact hne,
      fun he => Or.inr ⟨(fun w hw => by cases hw), t5 he⟩⟩
  | setIntent x => simp [cycleCall] at hc
  | complete db acc => simp [cycleCall] at hc
  | clearForms => simp [cycleCall] at hc

/-- A sequence of calls of a `Merge` cycle returns; the merge target is the receiver of the last
`connect` made, and when the dialog had no targets and a registration is among the calls, such a
`connect` was made. -/
theorem merge_run (ops : List Op) (d : DatabaseOpenDialog) (h : Inv d)
    (hI : d.m_intent = Intent.Merge) (hops : ∀ op ∈ ops, cycleCall op = true) :
    ∃ d1 evs, run d ops = .ok (d1, evs) ∧ Inv d1 ∧ d1.m_intent = Intent.Merge ∧
      d1.m_mergeDbWidget = lastConnected d.m_mergeDbWidget evs ∧
      (d.m_dbWidgets ≠ [] → d1.m_dbWidgets ≠ []) ∧
      (d.m_dbWidgets = [] → (∃ w, Op.addDatabaseTab w ∈ ops) →
        d1.m_dbWidgets ≠ [] ∧ ∃ w1, lastConnected none evs = some w1) := by
  induction ops generalizing d with
  | nil =>
    refine ⟨d, [], rfl, h, hI, rfl, fun hne => hne, fun _ hreg => ?_⟩
    obtain ⟨w, hw⟩ := hreg
    cases hw
  | cons op ops ih =>
    obtain ⟨d2, evs1, s1, s2, s3, s4, s5⟩ :=
      merge_step d op h hI (hops op (List.mem_cons_self _ _))
    have hinv2 : Inv d2 := inv_step d d2 op evs1 h s1
    obtain ⟨d1, evs2, r1, r2, r3, r4, r5, r6⟩ :=
      ih d2 hinv2 s2 (fun o ho => hops o (List.mem_cons_of_mem _ ho))
    have hrun : run d (op :: ops) = .ok (d1, evs1 ++ evs2) := by
      simp only [run, s1, r1]
    refine ⟨d1, evs1 ++ evs2, hrun, r2, r3, ?_, fun hne => r5 (s4 hne), fun he hreg => ?_⟩
    · rw [lastConnected_append, ← s3]
      exact r4
    · rcases s5 he with ⟨-, hne2, w1, hw1⟩ | ⟨hnot, hd, hev⟩
      · refine ⟨r5 hne2, ?_⟩
        rw [lastConnected_append, hw1]
        exact lastConnected_some w1 evs2
      · obtain ⟨w, hw⟩ := hreg
        have hw2 : Op.addDatabaseTab w ∈ ops := by
          rcases List.mem_cons.mp hw with hw | hw
          · exact absurd hw.symm (hnot w)
          · exact hw
        rw [hd] at r6
        rw [hev]
        exact r6 he ⟨w, hw2⟩

theorem lastConnected_of_none (evs : List Event) (w : DatabaseWidget)
    (h : lastConnected none evs = some w) (dflt : Option DatabaseWidget) :
    lastConnected dflt evs = some w := by
  induction evs generalizing dflt with
  | nil => cases h
  | cons e es ih =>
    cases e <;> simp only [lastConnected] at h ⊢ <;> first | exact h | exact ih h _

theorem inRange_nonempty (d : DatabaseOpenDialog) (i : Int) (h : Inv d)
    (hv : d.m_tabBar.validIndex i = true) :
    0 ≤ i ∧ i < (d.m_dbWidgets.length : Int) := by
  have := (QTabBar.validIndex_iff _ _).mp hv
  rw [← h.counts] at this
  exact this

/-- Under intent `Merge` a call of `tabChanged` with a valid index makes the target at that index
the merge target and leaves the tab bar and the targets alone. -/
theorem agrees_tabChanged_inRange (d d1 : DatabaseOpenDialog) (i : Int) (evs : List Event)
    (hI : d.m_intent = Intent.Merge) (h0 : 0 ≤ i) (h1 : i < (d.m_dbWidgets.length : Int))
    (hs : tabChanged d i = .ok (d1, evs)) :
    d1.m_dbWidgets = d.m_dbWidgets ∧ d1.m_tabBar = d.m_tabBar ∧ MergeTargetAt d1 (some i) := by
  obtain ⟨w, hw⟩ := getElem?_of_inRange d.m_dbWidgets i h0 h1
  rw [tabChanged_inRange d i w h0 hw] at hs
  obtain ⟨rfl, rfl⟩ := ok_pair_inj hs
  obtain ⟨f1, f2, -, -, -, f6, -⟩ := setTarget_fields d w w.filePath
  exact ⟨f1, f2, h0, w, by rw [f1]; exact hw, f6 hI⟩

theorem agrees_selectTab (d d1 : DatabaseOpenDialog) (g : SelectionState) (i : Int)
    (evs : List Event) (h : Inv d) (hI : d.m_intent = Intent.Merge) (hg : SelectionAgrees d g)
    (hs : selectTab d i = .ok (d1, evs)) :
    SelectionAgrees d1 (g.select i) ∧ d1.m_dbWidgets = d.m_dbWidgets := by
  rcases selectTab_cases d i h.unblocked with ⟨hno, h2⟩ | ⟨hv, hc, h2⟩
  · rw [h2] at hs
    cases hs
    have hcond : ¬ (0 ≤ i ∧ i < g.count ∧ i ≠ g.current) := by
      rintro ⟨a, b, c⟩
      rcases hno with hno | hno
      · rw [hg.count, h.counts] at b
        have : d.m_tabBar.validIndex i = true := (QTabBar.validIndex_iff _ _).mpr ⟨a, b⟩
        rw [hno] at this
        cases this
      · exact c (by rw [hg.current]; exact hno.symm)
    refine ⟨?_, rfl⟩
    unfold SelectionState.select
    rw [if_neg hcond]
    exact hg
  · rw [h2] at hs
    obtain ⟨a, b⟩ := inRange_nonempty d i h hv
    have hcond : 0 ≤ i ∧ i < g.count ∧ i ≠ g.current :=
      ⟨a, by rw [hg.count]; exact b, by rw [hg.current]; exact fun e => hc e.symm⟩
    obtain ⟨t1, t2, t3⟩ := agrees_tabChanged_inRange
      { d with m_tabBar := { d.m_tabBar with current := i } } d1 i evs hI a b hs
    refine ⟨?_, t1⟩
    unfold SelectionState.select
    rw [if_pos hcond]
    exact ⟨by rw [t1]; exact hg.count, by rw [t2], t3⟩

theorem agrees_addDatabaseTab (d d1 : DatabaseOpenDialog) (g : SelectionState)
    (w : DatabaseWidget) (evs : List Event) (h : Inv d) (hI : d.m_intent = Intent.Merge)
    (hg : SelectionAgrees d g) (hs : addDatabaseTab d (some w) = .ok (d1, evs)) :
    SelectionAgrees d1 (g.step (Op.addDatabaseTab w)) ∧ d1.m_dbWidgets = d.m_dbWidgets ++ [w] := by
  by_cases he : d.m_dbWidgets = []
  · obtain ⟨d2, h2, f1, f2, -, -, -, f6, -⟩ := addDatabaseTab_first d w h he
    rw [h2] at hs
    obtain ⟨rfl, rfl⟩ := ok_pair_inj hs
    have hc0 : g.count = 0 := by rw [hg.count, he]; rfl
    refine ⟨?_, by rw [f1, he]; rfl⟩
    simp only [SelectionState.step, hc0, if_true]
    exact ⟨by rw [f1]; rfl, by rw [f2], by decide, w, by rw [f1]; rfl, f6 hI⟩
  · obtain ⟨d2, h2, f1, f2, -, -, -, f6⟩ := addDatabaseTab_later d w h he
    rw [h2] at hs
    obtain ⟨rfl, rfl⟩ := ok_pair_inj hs
    have hlen : 0 < d.m_dbWidgets.length := List.length_pos.mpr he
    have hc0 : ¬ (g.count = 0) := by rw [hg.count]; omega
    refine ⟨?_, f1⟩
    simp only [SelectionState.step, hc0, if_false]
    refine ⟨by rw [f1, hg.count]; simp, by rw [f2]; exact hg.current, ?_⟩
    have ht := hg.target
    cases hl : g.last with
    | none =>
      rw [hl] at ht
      exact absurd ht he
    | some i =>
      rw [hl] at ht
      obtain ⟨a, w0, hw0, hm⟩ := ht
      have hlt : i.toNat < d.m_dbWidgets.length := by
        rcases Nat.lt_or_ge i.toNat d.m_dbWidgets.length with h' | h'
        · exact h'
        · rw [List.getElem?_eq_none h'] at hw0; cases hw0
      exact ⟨a, w0, by rw [f1, List.getElem?_append_left hlt]; exact hw0, by rw [f6]; exact hm⟩

/-- One call of a `Merge` cycle keeps the dialog in agreement with the tracked selection and
appends exactly the target it registers. -/
theorem agrees_step (d d1 : DatabaseOpenDialog) (g : SelectionState) (op : Op)
    (evs : List Event) (h : Inv d) (hI : d.m_intent = Intent.Merge) (hc : cycleCall op = true)
    (hg : SelectionAgrees d g) (hs : step d op = .ok (d1, evs)) :
    SelectionAgrees d1 (g.step op) ∧ d1.m_dbWidgets = d.m_dbWidgets ++ registered [op] := by
  cases op with
  | addDatabaseTab w => exact agrees_addDatabaseTab d d1 g w evs h hI hg hs
  | selectTab i =>
    obtain ⟨t1, t2⟩ := agrees_selectTab d d1 g i evs h hI hg hs
    exact ⟨t1, by rw [t2]; simp [registered]⟩
  | selectTabOffset k =>
    simp only [step] at hs
    rcases selectTabOffset_cases d k with ⟨hno, h2⟩ | ⟨hk, hcount, h2⟩
    · rw [h2] at hs
      cases hs
      have hcond : k = 0 ∨ g.count ≤ 1 := by
        rcases hno with hno | hno
        · exact Or.inl hno
        · right
          rw [hg.count, h.counts]
          exact hno
      refine ⟨?_, by simp [registered]⟩
      simp only [SelectionState.step, hcond, if_true]
      exact hg
    · rw [h2] at hs
      have hcond : ¬ (k = 0 ∨ g.count ≤ 1) := by
        rintro (a | a)
        · exact hk a
        · rw [hg.count, h.counts] at a
          have : d.m_tabBar.count ≤ 1 := a
          omega
      have hl : d.m_tabBar.tabList ≠ [] := by
        intro hl
        simp [QTabBar.count, hl] at hcount
      have hcur : d.m_tabBar.currentIndex = g.current := by
        rw [hg.current]
        simp [QTabBar.currentIndex, h.wf.2 hl]
      have hcnt : d.m_tabBar.count = g.count := by
        rw [hg.count, h.counts]
        rfl
      obtain ⟨t1, t2⟩ := agrees_selectTab d d1 g (offsetTarget d k) evs h hI hg hs
      refine ⟨?_, by rw [t2]; simp [registered]⟩
      simp only [SelectionState.step, hcond, if_false]
      have htarget : offsetTarget d k =
          (if g.current + k < 0 then g.count - 1
           else if g.current + k > g.count - 1 then 0
           else g.current + k) := by
        unfold offsetTarget
        rw [hcur, hcnt]
      rw [← htarget]
      exact t1
  | tabChanged i =>
    simp only [step] at hs
    by_cases hr : 0 ≤ i ∧ i < (d.m_dbWidgets.length : Int)
    · obtain ⟨t1, t2, t3⟩ := agrees_tabChanged_inRange d d1 i evs hI hr.1 hr.2 hs
      have hcond : 0 ≤ i ∧ i < g.count := ⟨hr.1, by rw [hg.count]; exact hr.2⟩
      refine ⟨?_, by rw [t1]; simp [registered]⟩
      simp only [SelectionState.step, hcond, and_self, if_true]
      exact ⟨by rw [t1]; exact hg.count, by rw [t2]; exact hg.current, t3⟩
    · have hout : i < 0 ∨ i ≥ (d.m_dbWidgets.length : Int) := by omega
      rw [tabChanged_outOfRange d i hout] at hs
      cases hs
      have hcond : ¬ (0 ≤ i ∧ i < g.count) := by rw [hg.count]; exact hr
      refine ⟨?_, by simp [registered]⟩
      simp only [SelectionState.step, hcond, if_false]
      exact hg
  | setIntent x => simp [cycleCall] at hc
  | complete db acc => simp [cycleCall] at hc
  | clearForms => simp [cycleCall] at hc

theorem registered_cons (op : Op) (ops : List Op) :
    registered (op :: ops) = registered [op] ++ registered ops := by
  cases op <;> simp [registered]

/-- A sequence of calls of a `Merge` cycle keeps the dialog in agreement with the tracked
selection; the targets are those registered, in order. -/
theorem agrees_run (ops : List Op) (d d1 : DatabaseOpenDialog) (g : SelectionState)
    (evs : List Event) (h : Inv d) (hI : d.m_intent = Intent.Merge)
    (hops : ∀ op ∈ ops, cycleCall op = true) (hg : SelectionAgrees d g)
    (hr : run d ops = .ok (d1, evs)) :
    SelectionAgrees d1 (SelectionState.after g ops) ∧
      d1.m_dbWidgets = d.m_dbWidgets ++ registered ops := by
  induction ops generalizing d g evs with
  | nil =>
    simp only [run] at hr
    cases hr
    exact ⟨hg, by simp [registered]⟩
  | cons op ops ih =>
    have hc := hops op (List.mem_cons_self _ _)
    obtain ⟨d2, evs1, s1, s2, -⟩ := merge_step d op h hI hc
    obtain ⟨a1, a2⟩ := agrees_step d d2 g op evs1 h hI hc hg s1
    have hinv2 : Inv d2 := inv_step d d2 op evs1 h s1
    simp only [run, s1] at hr
    cases hrun : run d2 ops with
    | error f =>
      rw [hrun] at hr
      cases hr
    | ok r2 =>
      obtain ⟨d3, evs3⟩ := r2
      rw [hrun] at hr
      simp only at hr
      have hd : d3 = d1 := by
        injection hr with hr
        exact congrArg Prod.fst hr
      subst hd
      obtain ⟨b1, b2⟩ :=
        ih d2 (g.step op) evs3 hinv2 s2 (fun o ho => hops o (List.mem_cons_of_mem _ ho)) a1 hrun
      refine ⟨b1, ?_⟩
      rw [b2, a2, registered_cons op ops, List.append_assoc]

end DatabaseOpenDialog

/-- The state `dialogABC` is what registering A, B, C and selecting tab 1 produces. -/
theorem dialogABC_run : DatabaseOpenDialog.run DatabaseOpenDialog.init
    [.addDatabaseTab widgetA, .addDatabaseTab widgetB, .addDatabaseTab widgetC, .selectTab 1] =
    .ok (dialogABC,
         [Event.disconnectAll, Event.connect widgetA, Event.load "/home/u/a.kdbx",
          Event.disconnectAll, Event.connect widgetB, Event.load "/home/u/b.kdbx"]) := by
  rfl

/-! ## Selection change (C3) -/

open DatabaseOpenDialog

/-- C3: for every state and every valid index `i`, `tabChanged(i)` returns, makes exactly the calls
disconnect-all, connect to `targets[i]`, `m_view->load(targets[i]'s file path)` (one load, one
rewire), leaves `targets[i]` as the only connected receiver, and leaves the target list, the tab
strip and the intent unchanged. -/
theorem C3_tabChanged_loads_and_rewires (d : DatabaseOpenDialog) (i : Int)
    (h0 : 0 ≤ i) (h1 : i < (d.m_dbWidgets.length : Int)) :
    ∃ w d1, d.m_dbWidgets[i.toNat]? = some w ∧
      tabChanged d i =
        .ok (d1, [Event.disconnectAll, Event.connect w, Event.load w.filePath]) ∧
      [Event.disconnectAll, Event.connect w, Event.load w.filePath].filter Event.isLoad =
        [Event.load w.filePath] ∧
      [Event.disconnectAll, Event.connect w, Event.load w.filePath].filter Event.isConnect =
        [Event.connect w] ∧
      d1.routes = [w] ∧ d1.m_dbWidgets = d.m_dbWidgets ∧ d1.m_tabBar = d.m_tabBar ∧
      d1.m_intent = d.m_intent ∧ d1.m_db = d.m_db := by
  obtain ⟨w, hw⟩ := getElem?_of_inRange d.m_dbWidgets i h0 h1
  obtain ⟨f1, f2, f3, f4, f5, -⟩ := setTarget_fields d w w.filePath
  refine ⟨w, (setTarget d w w.filePath).1, hw, ?_, rfl, rfl, f4, f1, f2, f3, f5⟩
  rw [tabChanged_inRange d i w h0 hw]
  rfl

/-- C3 at a concrete state: with A, B, C registered, `tabChanged(2)` loads C's path and leaves C as
the only receiver. -/
theorem C3_witness :
    (0 : Int) ≤ 2 ∧ (2 : Int) < (dialogABC.m_dbWidgets.length : Int) ∧
    tabChanged dialogABC 2 =
      .ok (dialogAt 1 widgetC,
        [Event.disconnectAll, Event.connect widgetC, Event.load "/home/u/c.kdbx"]) ∧
    ∃ w d1, dialogABC.m_dbWidgets[(2 : Int).toNat]? = some w ∧
      tabChanged dialogABC 2 =
        .ok (d1, [Event.disconnectAll, Event.connect w, Event.load w.filePath]) ∧
      [Event.disconnectAll, Event.connect w, Event.load w.filePath].filter Event.isLoad =
        [Event.load w.filePath] ∧
      [Event.disconnectAll, Event.connect w, Event.load w.filePath].filter Event.isConnect =
        [Event.connect w] ∧
      d1.routes = [w] ∧ d1.m_dbWidgets = dialogABC.m_dbWidgets ∧
      d1.m_tabBar = dialogABC.m_tabBar ∧
      d1.m_intent = dialogABC.m_intent ∧ d1.m_db = dialogABC.m_db :=
  ⟨by decide, by decide, by rfl,
    C3_tabChanged_loads_and_rewires dialogABC 2 (by decide) (by decide)⟩

/-! ## Reset (C5) -/

/-- C5: for every state, after `clearForms` there are no targets, the tab strip has no tabs (and
reports no current tab), nothing is connected to `dialogFinished`, and `intent()` is `None`. -/
theorem C5_clearForms_postcondition (d : DatabaseOpenDialog) :
    (clearForms d).1.m_dbWidgets.length = 0 ∧
    (clearForms d).1.m_tabBar.count = 0 ∧
    (clearForms d).1.m_tabBar.tabList = [] ∧
    (clearForms d).1.m_tabBar.currentIndex = -1 ∧
    (clearForms d).1.routes = [] ∧
    intent (clearForms d).1 = Intent.None := by
  obtain ⟨h1, h2, h3, h4, -⟩ := clearForms_fields d
  refine ⟨by rw [h1]; rfl, by simp [QTabBar.count, h2], h2, ?_, h3, h4⟩
  simp [QTabBar.currentIndex, QTabBar.validIndex, QTabBar.count, h2]

/-! ## Completion (C1, C2) -/

/-- C1: in every state with intent other than `Merge` whose tab strip's current index `i` is a
valid index of the target list, `complete(accepted)` returns, emits `dialogFinished` exactly once,
carrying `(accepted, targets[i])`, and leaves the reset state (no targets, no tabs, nothing
connected, no saved database, intent `None`); that state is the same for every `accepted` and every
database captured from the form. -/
theorem C1_complete_emits_selected_target (d : DatabaseOpenDialog) (i : Int)
    (db : Option Database) (accepted : Bool)
    (hI : d.m_intent ≠ Intent.Merge) (hcur : d.m_tabBar.currentIndex = i)
    (h0 : 0 ≤ i) (h1 : i < (d.m_dbWidgets.length : Int)) :
    ∃ w d1 evs, d.m_dbWidgets[i.toNat]? = some w ∧
      complete d db accepted = .ok (d1, evs) ∧
      evs = (if accepted then [Event.accept] else [Event.reject]) ++
        [Event.hostSetCurrent (some w), Event.dialogFinished accepted (some w)] ++
        d.routes.map (fun r => Event.unlockDatabase r accepted) ++ [Event.disconnectAll] ∧
      evs.filter Event.isDialogFinished = [Event.dialogFinished accepted (some w)] ∧
      d1.m_dbWidgets = [] ∧ d1.m_tabBar.tabList = [] ∧ d1.m_tabBar.currentIndex = -1 ∧
      d1.m_intent = Intent.None ∧ d1.routes = [] ∧ d1.m_db = none ∧
      (∀ db2 accepted2, ∃ evs2, complete d db2 accepted2 = .ok (d1, evs2)) := by
  obtain ⟨w, hw⟩ := getElem?_of_inRange d.m_dbWidgets i h0 h1
  have hdw : databaseWidget d = .ok (some w) :=
    databaseWidget_selected d w hI (by rw [hcur]; exact h0) (by rw [hcur]; exact hw)
  obtain ⟨c1, c2, c3, c4, c5, -⟩ := clearForms_fields d
  refine ⟨w, (clearForms d).1, _, hw, complete_of_databaseWidget d db accepted _ hdw, ?_, ?_,
    c1, c2, ?_, c4, c3, c5, fun db2 acc2 => ⟨_, complete_of_databaseWidget d db2 acc2 _ hdw⟩⟩
  · simp [hI]
  · exact completeEvents_filter_finished accepted (some w) _ d.routes
      (completePrefix_filter accepted _ (some w)).1
  · simp [QTabBar.currentIndex, QTabBar.validIndex, QTabBar.count, c2]

/-- C1 at the scenario of the specification: A, B, C registered, tab 1 selected; `complete(true)`
emits `dialogFinished(true, B)` once and resets. -/
theorem C1_witness :
    dialogABC.m_intent ≠ Intent.Merge ∧ dialogABC.m_tabBar.currentIndex = 1 ∧
    complete dialogABC none true =
      .ok (DatabaseOpenDialog.init,
        [Event.accept, Event.hostSetCurrent (some widgetB),
         Event.dialogFinished true (some widgetB), Event.unlockDatabase widgetB true,
         Event.disconnectAll]) ∧
    ∃ w d1 evs, dialogABC.m_dbWidgets[(1 : Int).toNat]? = some w ∧
      complete dialogABC none true = .ok (d1, evs) ∧
      evs = (if true then [Event.accept] else [Event.reject]) ++
        [Event.hostSetCurrent (some w), Event.dialogFinished true (some w)] ++
        dialogABC.routes.map (fun r => Event.unlockDatabase r true) ++ [Event.disconnectAll] ∧
      evs.filter Event.isDialogFinished = [Event.dialogFinished true (some w)] ∧
      d1.m_dbWidgets = [] ∧ d1.m_tabBar.tabList = [] ∧ d1.m_tabBar.currentIndex = -1 ∧
      d1.m_intent = Intent.None ∧ d1.routes = [] ∧ d1.m_db = none ∧
      (∀ db2 accepted2, ∃ evs2, complete dialogABC db2 accepted2 = .ok (d1, evs2)) :=
  ⟨by decide, by decide, by rfl,
    C1_complete_emits_selected_target dialogABC 1 none true (by decide) (by decide)
      (by decide) (by decide)⟩

/-! ## Tab/target correspondence (C4) -/

/-- C4: in every state reached from the constructed dialog by calls of `addDatabaseTab` (non-null
target), tab selections, `selectTabOffset`, `tabChanged`, `setIntent`, `complete` and `clearForms`
that return, the number of targets equals the number of tabs; a further registration returns and
keeps them equal (one more of each), and so does a reset (none of each). -/
theorem C4_targets_match_tabs (d : DatabaseOpenDialog) (h : ReachableBy anyCall d) :
    (d.m_dbWidgets.length : Int) = d.m_tabBar.count ∧
    (∀ w, ∃ d1 evs, addDatabaseTab d (some w) = .ok (d1, evs) ∧
      d1.m_dbWidgets.length = d.m_dbWidgets.length + 1 ∧
      (d1.m_dbWidgets.length : Int) = d1.m_tabBar.count) ∧
    ((clearForms d).1.m_dbWidgets.length = 0 ∧ (clearForms d).1.m_tabBar.count = 0) := by
  have hinv := inv_reachable anyCall d h
  refine ⟨by simp [QTabBar.count, hinv.counts], fun w => ?_, ?_⟩
  · by_cases he : d.m_dbWidgets = []
    · obtain ⟨d1, h2, f1, f2, -⟩ := addDatabaseTab_first d w hinv he
      refine ⟨d1, _, h2, ?_, ?_⟩
      · rw [f1, he]; rfl
      · rw [f1, f2]; rfl
    · obtain ⟨d1, h2, f1, f2, -⟩ := addDatabaseTab_later d w hinv he
      refine ⟨d1, _, h2, ?_, ?_⟩
      · rw [f1]; simp
      · rw [f1, f2]; simp [QTabBar.count, hinv.counts]
  · obtain ⟨c1, c2, -⟩ := clearForms_fields d
    exact ⟨by rw [c1]; rfl, by simp [QTabBar.count, c2]⟩

/-- C4 at a concrete reachable state: after registering A, B, C and selecting tab 1 there are
three targets and three tabs. -/
theorem C4_witness :
    ReachableBy anyCall dialogABC ∧ (dialogABC.m_dbWidgets.length : Int) = 3 ∧
    dialogABC.m_tabBar.count = 3 ∧
    ((dialogABC.m_dbWidgets.length : Int) = dialogABC.m_tabBar.count ∧
    (∀ w, ∃ d1 evs, addDatabaseTab dialogABC (some w) = .ok (d1, evs) ∧
      d1.m_dbWidgets.length = dialogABC.m_dbWidgets.length + 1 ∧
      (d1.m_dbWidgets.length : Int) = d1.m_tabBar.count) ∧
    ((clearForms dialogABC).1.m_dbWidgets.length = 0 ∧
      (clearForms dialogABC).1.m_tabBar.count = 0)) :=
  ⟨reachableBy_run anyCall _ _ _ _ ReachableBy.init (by rfl) dialogABC_run, by decide, by decide,
    C4_targets_match_tabs dialogABC
      (reachableBy_run anyCall _ _ _ _ ReachableBy.init (by rfl) dialogABC_run)⟩

/-! ## No targets (C7) -/

/-- C7, the code at the failing input: on the freshly constructed dialog (and on a dialog just
reset) `tabChanged(0)` does nothing, but `databaseWidget()` does not return null: the tab bar's
current index is -1, the guard `index < m_dbWidgets.count()` lets it through, and the empty list
is indexed at -1; `complete` runs into the same access. -/
theorem C7_databaseWidget_indexes_empty_list :
    tabChanged DatabaseOpenDialog.init 0 = .ok (DatabaseOpenDialog.init, []) ∧
    DatabaseOpenDialog.init.m_tabBar.currentIndex = -1 ∧
    databaseWidget DatabaseOpenDialog.init = .error (Fault.indexOutOfRange (-1) 0) ∧
    databaseWidget (clearForms dialogABC).1 = .error (Fault.indexOutOfRange (-1) 0) ∧
    complete DatabaseOpenDialog.init none true = .error (Fault.indexOutOfRange (-1) 0) := by
  refine ⟨by rfl, by rfl, by rfl, by rfl, by rfl⟩

/-! ## Cycling through the tabs (C8, C9) -/

/-- C8: with at least two tabs and a current tab `c`, `selectTabOffset(+1)` makes tab 0 current
when `c` is the last tab and tab `c + 1` otherwise, `selectTabOffset(-1)` makes the last tab
current when `c` is 0 and tab `c - 1` otherwise (targets, tabs, intent unchanged); with offset 0
or fewer than two tabs `selectTabOffset` returns the state unchanged and makes no call. -/
theorem C8_selectTabOffset_single_step :
    (∀ d : DatabaseOpenDialog, 2 ≤ d.m_tabBar.count → 0 ≤ d.m_tabBar.currentIndex →
      (∃ d1 evs, selectTabOffset d 1 = .ok (d1, evs) ∧
        d1.m_tabBar.currentIndex =
          (if d.m_tabBar.currentIndex = d.m_tabBar.count - 1 then 0
           else d.m_tabBar.currentIndex + 1) ∧
        d1.m_tabBar.tabList = d.m_tabBar.tabList ∧ d1.m_dbWidgets = d.m_dbWidgets ∧
        d1.m_intent = d.m_intent) ∧
      (∃ d1 evs, selectTabOffset d (-1) = .ok (d1, evs) ∧
        d1.m_tabBar.currentIndex =
          (if d.m_tabBar.currentIndex = 0 then d.m_tabBar.count - 1
           else d.m_tabBar.currentIndex - 1) ∧
        d1.m_tabBar.tabList = d.m_tabBar.tabList ∧ d1.m_dbWidgets = d.m_dbWidgets ∧
        d1.m_intent = d.m_intent)) ∧
    (∀ (d : DatabaseOpenDialog) (offset : Int), offset = 0 ∨ d.m_tabBar.count ≤ 1 →
      selectTabOffset d offset = .ok (d, [])) := by
  refine ⟨fun d hN hc => ⟨?_, ?_⟩, fun d offset h => ?_⟩
  · obtain ⟨d1, evs, e1, e2, e3, e4, e5, -⟩ :=
      selectTabOffset_selects d 1 (by omega) (by decide)
    refine ⟨d1, evs, e1, ?_, e3, e4, e5⟩
    rw [e2]
    have hlt : d.m_tabBar.currentIndex < d.m_tabBar.count := by
      unfold QTabBar.currentIndex at hc ⊢
      split_ifs with hv
      · exact ((QTabBar.validIndex_iff _ _).mp hv).2
      · omega
    unfold offsetTarget
    split_ifs <;> omega
  · obtain ⟨d1, evs, e1, e2, e3, e4, e5, -⟩ :=
      selectTabOffset_selects d (-1) (by omega) (by decide)
    refine ⟨d1, evs, e1, ?_, e3, e4, e5⟩
    rw [e2]
    have hlt : d.m_tabBar.currentIndex < d.m_tabBar.count := by
      unfold QTabBar.currentIndex at hc ⊢
      split_ifs with hv
      · exact ((QTabBar.validIndex_iff _ _).mp hv).2
      · omega
    unfold offsetTarget
    split_ifs <;> omega
  · rcases selectTabOffset_cases d offset with ⟨-, h2⟩ | ⟨h1, h2, -⟩
    · exact h2
    · rcases h with h | h
      · exact absurd h h1
      · omega

/-- C8 at concrete states with tabs A, B, C: from the last tab `+1` wraps to tab 0, from tab 0
`-1` wraps to the last tab, from tab 1 the neighbours are selected; on the empty dialog nothing
happens. -/
theorem C8_witness :
    (2 : Int) ≤ (dialogAt 2 widgetC).m_tabBar.count ∧
    (0 : Int) ≤ (dialogAt 2 widgetC).m_tabBar.currentIndex ∧
    selectTabOffset (dialogAt 2 widgetC) 1 =
      .ok (dialogAt 0 widgetA,
        [Event.disconnectAll, Event.connect widgetA, Event.load "/home/u/a.kdbx"]) ∧
    selectTabOffset (dialogAt 0 widgetA) (-1) =
      .ok (dialogAt 2 widgetC,
        [Event.disconnectAll, Event.connect widgetC, Event.load "/home/u/c.kdbx"]) ∧
    ((∃ d1 evs, selectTabOffset (dialogAt 2 widgetC) 1 = .ok (d1, evs) ∧
        d1.m_tabBar.currentIndex =
          (if (dialogAt 2 widgetC).m_tabBar.currentIndex = (dialogAt 2 widgetC).m_tabBar.count - 1
           then 0 else (dialogAt 2 widgetC).m_tabBar.currentIndex + 1) ∧
        d1.m_tabBar.tabList = (dialogAt 2 widgetC).m_tabBar.tabList ∧
        d1.m_dbWidgets = (dialogAt 2 widgetC).m_dbWidgets ∧
        d1.m_intent = (dialogAt 2 widgetC).m_intent) ∧
      (∃ d1 evs, selectTabOffset (dialogAt 2 widgetC) (-1) = .ok (d1, evs) ∧
        d1.m_tabBar.currentIndex =
          (if (dialogAt 2 widgetC).m_tabBar.currentIndex = 0
           then (dialogAt 2 widgetC).m_tabBar.count - 1
           else (dialogAt 2 widgetC).m_tabBar.currentIndex - 1) ∧
        d1.m_tabBar.tabList = (dialogAt 2 widgetC).m_tabBar.tabList ∧
        d1.m_dbWidgets = (dialogAt 2 widgetC).m_dbWidgets ∧
        d1.m_intent = (dialogAt 2 widgetC).m_intent)) ∧
    selectTabOffset DatabaseOpenDialog.init 1 = .ok (DatabaseOpenDialog.init, []) :=
  ⟨by decide, by decide, by rfl, by rfl,
    C8_selectTabOffset_single_step.1 (dialogAt 2 widgetC) (by decide) (by decide),
    C8_selectTabOffset_single_step.2 DatabaseOpenDialog.init 1 (Or.inr (by decide))⟩

/-- C9 as stated fails: with tabs A, B, C and tab 1 current, `selectTabOffset(3)` makes tab 0
current, not tab `(1 + 3) mod 3 = 1`; with tab 0 current, `selectTabOffset(-2)` makes tab 2
current, not tab `(0 - 2) mod 3 = 1`. -/
theorem C9_counterexample :
    selectTabOffset (dialogAt 1 widgetB) 3 =
      .ok (dialogAt 0 widgetA,
        [Event.disconnectAll, Event.connect widgetA, Event.load "/home/u/a.kdbx"]) ∧
    (dialogAt 0 widgetA).m_tabBar.currentIndex = 0 ∧
    ((dialogAt 1 widgetB).m_tabBar.currentIndex + 3) % (dialogAt 1 widgetB).m_tabBar.count = 1 ∧
    selectTabOffset (dialogAt 0 widgetA) (-2) =
      .ok (dialogAt 2 widgetC,
        [Event.disconnectAll, Event.connect widgetC, Event.load "/home/u/c.kdbx"]) ∧
    (dialogAt 2 widgetC).m_tabBar.currentIndex = 2 ∧
    ((dialogAt 0 widgetA).m_tabBar.currentIndex + (-2)) % (dialogAt 0 widgetA).m_tabBar.count = 1 := by
  refine ⟨by rfl, by decide, by decide, by rfl, by decide, by decide⟩

/-- C9 amended: with at least two tabs, a current tab `c` and a non-zero offset, `selectTabOffset`
returns and makes current the last tab when `c + offset < 0`, tab 0 when `c + offset` exceeds the
last index, and tab `c + offset` otherwise; this is `(c + offset) mod N` whenever
`-1 ≤ c + offset ≤ N`, in particular for the offsets `+1` and `-1` the dialog uses. -/
theorem C9_selectTabOffset_snaps_to_end (d : DatabaseOpenDialog) (offset : Int)
    (hN : 2 ≤ d.m_tabBar.count) (hc : 0 ≤ d.m_tabBar.currentIndex) (hoff : offset ≠ 0) :
    ∃ d1 evs, selectTabOffset d offset = .ok (d1, evs) ∧
      d1.m_tabBar.currentIndex =
        (if d.m_tabBar.currentIndex + offset < 0 then d.m_tabBar.count - 1
         else if d.m_tabBar.currentIndex + offset > d.m_tabBar.count - 1 then 0
         else d.m_tabBar.currentIndex + offset) ∧
      (-1 ≤ d.m_tabBar.currentIndex + offset → d.m_tabBar.currentIndex + offset ≤ d.m_tabBar.count →
        d1.m_tabBar.currentIndex = (d.m_tabBar.currentIndex + offset) % d.m_tabBar.count) ∧
      ((offset = 1 ∨ offset = -1) →
        d1.m_tabBar.currentIndex = (d.m_tabBar.currentIndex + offset) % d.m_tabBar.count) := by
  obtain ⟨d1, evs, e1, e2, -⟩ := selectTabOffset_selects d offset (by omega) hoff
  have hlt : d.m_tabBar.currentIndex < d.m_tabBar.count := by
    unfold QTabBar.currentIndex at hc ⊢
    split_ifs with hv
    · exact ((QTabBar.validIndex_iff _ _).mp hv).2
    · omega
  have key : -1 ≤ d.m_tabBar.currentIndex + offset →
      d.m_tabBar.currentIndex + offset ≤ d.m_tabBar.count →
      offsetTarget d offset = (d.m_tabBar.currentIndex + offset) % d.m_tabBar.count := by
    intro hlo hhi
    unfold offsetTarget
    generalize d.m_tabBar.currentIndex + offset = t at hlo hhi ⊢
    generalize d.m_tabBar.count = n at hN hhi ⊢
    by_cases h1 : t < 0
    · have ht : t = -1 := by omega
      subst ht
      rw [if_pos h1]
      have hm : (-1 : Int) % n = n - 1 := by
        have h3 : ((-1 : Int) + n) % n = -1 % n := Int.add_emod_self
        have h4 : ((-1 : Int) + n) % n = -1 + n := Int.emod_eq_of_lt (by omega) (by omega)
        omega
      rw [hm]
    · rw [if_neg h1]
      by_cases h2 : t > n - 1
      · have ht : t = n := by omega
        subst ht
        rw [if_pos h2]
        simp
      · rw [if_neg h2]
        exact (Int.emod_eq_of_lt (by omega) (by omega)).symm
  refine ⟨d1, evs, e1, by rw [e2]; rfl, fun hlo hhi => by rw [e2]; exact key hlo hhi, fun h => ?_⟩
  rw [e2]
  exact key (by omega) (by omega)

/-- C9 amended, at tabs A, B, C with tab 1 current and offset 3: tab 0 becomes current. -/
theorem C9_witness :
    (2 : Int) ≤ (dialogAt 1 widgetB).m_tabBar.count ∧
    (0 : Int) ≤ (dialogAt 1 widgetB).m_tabBar.currentIndex ∧ (3 : Int) ≠ 0 ∧
    ∃ d1 evs, selectTabOffset (dialogAt 1 widgetB) 3 = .ok (d1, evs) ∧
      d1.m_tabBar.currentIndex =
        (if (dialogAt 1 widgetB).m_tabBar.currentIndex + 3 < 0
           then (dialogAt 1 widgetB).m_tabBar.count - 1
         else if (dialogAt 1 widgetB).m_tabBar.currentIndex + 3 >
             (dialogAt 1 widgetB).m_tabBar.count - 1 then 0
         else (dialogAt 1 widgetB).m_tabBar.currentIndex + 3) ∧
      (-1 ≤ (dialogAt 1 widgetB).m_tabBar.currentIndex + 3 →
        (dialogAt 1 widgetB).m_tabBar.currentIndex + 3 ≤ (dialogAt 1 widgetB).m_tabBar.count →
        d1.m_tabBar.currentIndex =
          ((dialogAt 1 widgetB).m_tabBar.currentIndex + 3) % (dialogAt 1 widgetB).m_tabBar.count) ∧
      (((3 : Int) = 1 ∨ (3 : Int) = -1) →
        d1.m_tabBar.currentIndex =
          ((dialogAt 1 widgetB).m_tabBar.currentIndex + 3) % (dialogAt 1 widgetB).m_tabBar.count) :=
  ⟨by decide, by decide, by decide,
    C9_selectTabOffset_snaps_to_end (dialogAt 1 widgetB) 3 (by decide) (by decide) (by decide)⟩

/-! ## The connected receiver and the reported target (C10) -/

/-- C10: in every state reached from the constructed dialog by registrations, tab selections,
`selectTabOffset`, `complete`, `clearForms`, and `setIntent` called only while no target is
registered, if a target is registered then exactly one receiver `w` is connected to
`dialogFinished`, `databaseWidget()` returns `w`, and `complete(accepted)` returns, runs the
`unlockDatabase` slot of `w` only, and emits `dialogFinished(accepted, w)` once. -/
theorem C10_route_agrees_with_reported_target (d : DatabaseOpenDialog)
    (h : ReachableBy hostProtocol d) (hne : d.m_dbWidgets ≠ []) :
    ∃ w, d.routes = [w] ∧ databaseWidget d = .ok (some w) ∧
      ∀ db accepted, ∃ d1 evs, complete d db accepted = .ok (d1, evs) ∧
        evs.filter Event.isUnlockDatabase = [Event.unlockDatabase w accepted] ∧
        evs.filter Event.isDialogFinished = [Event.dialogFinished accepted (some w)] := by
  have hinv := inv_reachable hostProtocol d h
  obtain ⟨w, hroute, hsel⟩ := routeAgrees_reachable d h hne
  have hdw := routeAgrees_databaseWidget d w hinv hne hsel
  refine ⟨w, hroute, hdw, fun db accepted => ?_⟩
  refine ⟨_, _, complete_of_databaseWidget d db accepted _ hdw, ?_, ?_⟩
  · rw [completeEvents_filter_unlock accepted (some w) _ d.routes
      (completePrefix_filter accepted _ (some w)).2, hroute]
    rfl
  · exact completeEvents_filter_finished accepted (some w) _ d.routes
      (completePrefix_filter accepted _ (some w)).1

/-- C10 at the state with A, B, C registered and tab 1 selected: B is the only receiver and the
reported target. -/
theorem C10_witness :
    ReachableBy hostProtocol dialogABC ∧ dialogABC.m_dbWidgets ≠ [] ∧
    dialogABC.routes = [widgetB] ∧ databaseWidget dialogABC = .ok (some widgetB) ∧
    ∃ w, dialogABC.routes = [w] ∧ databaseWidget dialogABC = .ok (some w) ∧
      ∀ db accepted, ∃ d1 evs, complete dialogABC db accepted = .ok (d1, evs) ∧
        evs.filter Event.isUnlockDatabase = [Event.unlockDatabase w accepted] ∧
        evs.filter Event.isDialogFinished = [Event.dialogFinished accepted (some w)] :=
  ⟨reachableBy_run hostProtocol _ _ _ _ ReachableBy.init (by rfl) dialogABC_run, by decide,
    by rfl, by rfl,
    C10_route_agrees_with_reported_target dialogABC
      (reachableBy_run hostProtocol _ _ _ _ ReachableBy.init (by rfl) dialogABC_run) (by decide)⟩

/-! ## Completion under intent `Merge` (C2) -/

/-- C2: let `setIntent(Merge)` be called on a dialog without targets (and, as `Inv` says, without
tabs, with no current tab and with signals delivered), followed by any sequence of
registrations, tab selections, `selectTabOffset` and `tabChanged` calls containing at least one
registration. The sequence returns, the targets are those registered, in order, and a selection
change with a valid index has happened; with `i` the index of the most recent one
(`lastSelectionChange`) and `w = targets[i]`: the merge target is `w`, the last `connect` was made
to `w`, `complete(accepted)` returns and emits `dialogFinished(accepted, w)` exactly once, and a
further registration leaves the merge target `w`. -/
theorem C2_merge_complete_reports_last_selection (d0 : DatabaseOpenDialog) (ops : List Op)
    (db : Option Database) (accepted : Bool)
    (hinv : Inv d0) (hnone : d0.m_dbWidgets = [])
    (hops : ∀ op ∈ ops, cycleCall op = true) (hreg : ∃ w, Op.addDatabaseTab w ∈ ops) :
    ∃ d evs i w d1 cevs, run (setIntent d0 Intent.Merge) ops = .ok (d, evs) ∧
      d.m_dbWidgets = registered ops ∧
      lastSelectionChange ops = some i ∧ 0 ≤ i ∧ (registered ops)[i.toNat]? = some w ∧
      lastConnected none evs = some w ∧ d.m_mergeDbWidget = some w ∧
      complete d db accepted = .ok (d1, cevs) ∧
      cevs.filter Event.isDialogFinished = [Event.dialogFinished accepted (some w)] ∧
      (∀ w2, ∃ d2, addDatabaseTab d (some w2) = .ok (d2, []) ∧ d2.m_mergeDbWidget = some w) := by
  have hinv1 : Inv (setIntent d0 Intent.Merge) := ⟨hinv.counts, hinv.wf, hinv.unblocked⟩
  obtain ⟨d, evs, r1, r2, r3, r4, -, r6⟩ :=
    merge_run ops (setIntent d0 Intent.Merge) hinv1 rfl hops
  obtain ⟨hne, w, hw⟩ := r6 hnone hreg
  have hm : d.m_mergeDbWidget = some w := by
    rw [r4]
    exact lastConnected_of_none evs w hw _
  have hstart : SelectionAgrees (setIntent d0 Intent.Merge) SelectionState.start := by
    have hl : d0.m_tabBar.tabList = [] := by
      have := hinv.counts
      rw [hnone] at this
      exact List.length_eq_zero.mp this.symm
    exact ⟨by show (0 : Int) = (d0.m_dbWidgets.length : Int)
              rw [hnone]; rfl,
           (hinv.wf.1 hl).symm, hnone⟩
  obtain ⟨hagree, htargets⟩ :=
    agrees_run ops (setIntent d0 Intent.Merge) d SelectionState.start evs hinv1 rfl hops hstart r1
  have htargets2 : d.m_dbWidgets = registered ops := by
    rw [htargets]
    show d0.m_dbWidgets ++ registered ops = registered ops
    rw [hnone]
    rfl
  have hdw : databaseWidget d = .ok (some w) := by
    rw [databaseWidget_merge d r3, hm]
  have ht := hagree.target
  cases hl : (SelectionState.after SelectionState.start ops).last with
  | none =>
    rw [hl] at ht
    exact absurd ht hne
  | some i =>
    rw [hl] at ht
    obtain ⟨h0, w3, hw3, hm3⟩ := ht
    have hww : w3 = w := by
      rw [hm] at hm3
      exact (Option.some.inj hm3).symm
    subst hww
    refine ⟨d, evs, i, w3, _, _, r1, htargets2, hl, h0, by rw [← htargets2]; exact hw3, hw, hm,
      complete_of_databaseWidget d db accepted _ hdw, ?_, fun w2 => ?_⟩
    · exact completeEvents_filter_finished accepted (some w3) _ d.routes
        (completePrefix_filter accepted _ (some w3)).1
    · obtain ⟨d2, h2, -, -, -, -, -, f6⟩ := addDatabaseTab_later d w2 r2 hne
      exact ⟨d2, h2, by rw [f6]; exact hm⟩

/-- C2 at the scenario of the specification: `setIntent(Merge)`; register D; select tab 0;
register E; select tab 1; the most recent selection change is to index 1, and `complete(true)`
emits `dialogFinished(true, E)`. With `selectTabOffset(1)` in place of the last selection the
result is the same. -/
theorem C2_witness :
    run (setIntent DatabaseOpenDialog.init Intent.Merge)
        [.addDatabaseTab widgetD, .selectTab 0, .addDatabaseTab widgetE, .selectTab 1] =
      .ok (dialogDE,
        [Event.disconnectAll, Event.connect widgetD, Event.load "/srv/d.kdbx",
         Event.disconnectAll, Event.connect widgetE, Event.load "/srv/e.kdbx"]) ∧
    lastSelectionChange
        [.addDatabaseTab widgetD, .selectTab 0, .addDatabaseTab widgetE, .selectTab 1] = some 1 ∧
    lastSelectionChange
        [.addDatabaseTab widgetD, .addDatabaseTab widgetE, .selectTabOffset 1] = some 1 ∧
    run (setIntent DatabaseOpenDialog.init Intent.Merge)
        [.addDatabaseTab widgetD, .addDatabaseTab widgetE, .selectTabOffset 1] =
      .ok (dialogDE,
        [Event.disconnectAll, Event.connect widgetD, Event.load "/srv/d.kdbx",
         Event.disconnectAll, Event.connect widgetE, Event.load "/srv/e.kdbx"]) ∧
    complete dialogDE none true =
      .ok ({ DatabaseOpenDialog.init with m_mergeDbWidget := some widgetE },
        [Event.accept, Event.dialogFinished true (some widgetE),
         Event.unlockDatabase widgetE true, Event.disconnectAll]) ∧
    ∃ d evs i w d1 cevs,
      run (setIntent DatabaseOpenDialog.init Intent.Merge)
        [.addDatabaseTab widgetD, .selectTab 0, .addDatabaseTab widgetE, .selectTab 1] =
        .ok (d, evs) ∧
      d.m_dbWidgets =
        registered [.addDatabaseTab widgetD, .selectTab 0, .addDatabaseTab widgetE, .selectTab 1] ∧
      lastSelectionChange
        [.addDatabaseTab widgetD, .selectTab 0, .addDatabaseTab widgetE, .selectTab 1] = some i ∧
      0 ≤ i ∧
      (registered
        [.addDatabaseTab widgetD, .selectTab 0, .addDatabaseTab widgetE, .selectTab 1])[i.toNat]? =
        some w ∧
      lastConnected none evs = some w ∧ d.m_mergeDbWidget = some w ∧
      complete d none true = .ok (d1, cevs) ∧
      cevs.filter Event.isDialogFinished = [Event.dialogFinished true (some w)] ∧
      (∀ w2, ∃ d2, addDatabaseTab d (some w2) = .ok (d2, []) ∧ d2.m_mergeDbWidget = some w) :=
  ⟨by rfl, by rfl, by rfl, by rfl, by rfl,
    C2_merge_complete_reports_last_selection DatabaseOpenDialog.init
      [.addDatabaseTab widgetD, .selectTab 0, .addDatabaseTab widgetE, .selectTab 1] none true
      inv_init rfl (by decide) ⟨widgetD, by decide⟩⟩

/-! ## What a reset leaves behind (C6) -/

/-- C6, the code at the failing input: `clearForms` drops the saved database and the intent but, in
every state, leaves `m_mergeDbWidget` as it was. After the cycle `setIntent(Merge)`, register D,
`complete(true)`, the merge target is still D; in the following cycle `setIntent(Merge)` with no
target registered and no selection change makes `databaseWidget()` return D, and `complete(false)`
emits `dialogFinished(false, D)`, where the claim requires no target. -/
theorem C6_reset_leaves_merge_target :
    (∀ d : DatabaseOpenDialog,
      database (clearForms d).1 = none ∧ intent (clearForms d).1 = Intent.None ∧
      (clearForms d).1.m_mergeDbWidget = d.m_mergeDbWidget) ∧
    run DatabaseOpenDialog.init
        [.setIntent Intent.Merge, .addDatabaseTab widgetD, .complete none true] =
      .ok (dialogAfterMergeD,
        [Event.disconnectAll, Event.connect widgetD, Event.load "/srv/d.kdbx",
         Event.accept, Event.dialogFinished true (some widgetD),
         Event.unlockDatabase widgetD true, Event.disconnectAll]) ∧
    dialogAfterMergeD.m_dbWidgets = [] ∧
    dialogAfterMergeD.m_mergeDbWidget = some widgetD ∧
    (clearForms dialogAfterMergeD).1.m_mergeDbWidget = some widgetD ∧
    databaseWidget (setIntent dialogAfterMergeD Intent.Merge) = .ok (some widgetD) ∧
    allowedAlong hostProtocol DatabaseOpenDialog.init
        [.setIntent Intent.Merge, .addDatabaseTab widgetD, .complete none true,
         .setIntent Intent.Merge, .complete none false] = true ∧
    run DatabaseOpenDialog.init
        [.setIntent Intent.Merge, .addDatabaseTab widgetD, .complete none true,
         .setIntent Intent.Merge, .complete none false] =
      .ok (dialogAfterMergeD,
        [Event.disconnectAll, Event.connect widgetD, Event.load "/srv/d.kdbx",
         Event.accept, Event.dialogFinished true (some widgetD),
         Event.unlockDatabase widgetD true, Event.disconnectAll,
         Event.reject, Event.dialogFinished false (some widgetD), Event.disconnectAll]) := by
  refine ⟨fun d => ⟨rfl, rfl, rfl⟩, by rfl, by rfl, by rfl, by rfl, by rfl, by rfl, by rfl⟩
